import Mathlib

/-!
Shallow embedding of the HR shift-scheduling backend (FastAPI + SQLAlchemy,
`backend/app/main.py`, `backend/app/holidays_jp.py`, `backend/app/models.py`)
and proofs about its constraint validators, schedule generator, comp-off
ledger, leave approval and check-out overtime reconciliation.

Modelling conventions:
- A calendar date is an integer number of days since 1970-01-01 (`Day`).
  Python's `date.weekday()` (Monday = 0) becomes `pyWeekday`;
  PostgreSQL's `extract('dow', ...)` (Sunday = 0) becomes `pgDow`.
- "HH:MM" time strings are modelled as minutes (`Int`); a nullable time
  column is `Option Int`.  Hour quantities computed by the code as Python
  floats are modelled as `ℚ` (the code only ever divides minute counts by
  60, so rationals are exact); Python's `round(x, 2)` is `round2`.
- The database session is a record of lists of rows; SQLAlchemy queries
  become list filters.  The session has `autoflush` semantics (the
  SQLAlchemy default): rows added earlier in the same request are visible
  to later queries of the same request.
- A `strftime("%Y-%m")` month key is modelled as the linear month index
  `year * 12 + (month - 1)` (`monthIndexOfDay`); comparison of "YYYY-MM"
  strings is lexicographic, which on four-digit years coincides with the
  linear order of month indices.
- Endpoints that raise `HTTPException` (or let a Python exception escape)
  before `commit` leave the store unchanged; they are modelled as
  `Except`/sum results paired with the unchanged state.  Authentication
  and manager-department resolution are outside the model.
- Database-level integrity enforcement (NOT NULL, foreign keys) is not
  modelled; `.ok` results correspond to requests whose final commit
  succeeds.
-/

namespace ShiftSched

/-- Days since 1970-01-01 (a Thursday). -/
abbrev Day := Int

/-- Python `date.weekday()`: Monday = 0, ..., Sunday = 6. -/
def pyWeekday (d : Int) : Int := (d + 3) % 7

/-- PostgreSQL `extract('dow', date)`: Sunday = 0, ..., Saturday = 6. -/
def pgDow (d : Int) : Int := (d + 4) % 7

/-- `target_date - timedelta(days=target_date.weekday())` — the Monday of
the week containing `d` (main.py:122, 198, 5655, 5755). -/
def weekStartOf (d : Int) : Int := d - pyWeekday d

/-- The dates enumerated by `while current <= end: ... current += 1 day`
(empty when `e < s`). -/
def dateRange (s e : Int) : List Int :=
  (List.range (e + 1 - s).toNat).map (fun (i : Nat) => s + (i : Int))

/-- Day-of-week names as produced by `date.strftime('%A')`. -/
def dayNames : List String :=
  ["Monday", "Tuesday", "Wednesday", "Thursday", "Friday", "Saturday", "Sunday"]

/-- `current_date.strftime('%A')`. -/
def dayName (d : Day) : String := dayNames.getD (pyWeekday d).toNat "Monday"

/-- Civil-calendar month of a day, as the linear index `year * 12 + (month - 1)`.
Models `strftime("%Y-%m")`.  (Standard days-to-civil conversion; `/` is
floor division here, and every date representable by Python `datetime.date`
gives a non-negative shifted day number `z`.) -/
def monthIndexOfDay (d : Day) : Int :=
  let z := d + 719468
  let era := z / 146097
  let doe := z - era * 146097
  let yoe := (doe - doe / 1460 + doe / 36524 - doe / 146096) / 365
  let y := yoe + era * 400
  let doy := doe - (365 * yoe + yoe / 4 - yoe / 100)
  let mp := (5 * doy + 2) / 153
  let m := mp + (if mp < 10 then 3 else -9)
  let yy := y + (if m ≤ 2 then 1 else 0)
  yy * 12 + (m - 1)

/-- Addition on `ℚ` written so that the kernel can evaluate it on concrete
inputs (the cross-multiplication formula over `Rat.divInt`); proven equal
to `+` below. -/
def qAdd (a b : ℚ) : ℚ := Rat.divInt (a.num * b.den + b.num * a.den) (a.den * b.den)

/-- Subtraction on `ℚ` in kernel-evaluable form; proven equal to `-` below. -/
def qSub (a b : ℚ) : ℚ := Rat.divInt (a.num * b.den - b.num * a.den) (a.den * b.den)

/-- A whole number of minutes as a quantity of hours (`x / 60` on minute
counts, `total_seconds() / 3600` on whole-minute time deltas). -/
def minutesToHours (m : Int) : ℚ := Rat.divInt m 60

/-- Python `round(x, 2)` on the exact rational value, as round-half-up to
two decimals: `⌊100·q + 1/2⌋ / 100` with the floor computed on integers
(`/` on `ℤ` is floor division and `q.den` is positive).  Python rounds
floats half-to-even; the two agree at every non-tie point, and the
modelled code only produces ties at inputs that do not arise from
whole-minute data. -/
def round2 (q : ℚ) : ℚ := Rat.divInt ((200 * q.num + (q.den : ℤ)) / (2 * (q.den : ℤ))) 100

/-- Sort a list of integers ascending (Python `sorted`; insertion sort so
that the kernel can evaluate it on concrete inputs). -/
def sortInts (l : List Int) : List Int := List.insertionSort (fun a b => a ≤ b) l

/-- Python `sorted(...)` followed by `list(dict.fromkeys(...))`
(main.py:215-216): sort ascending, then drop duplicates keeping first
occurrences. -/
def sortedDedup (l : List Int) : List Int := (sortInts l).dedup

/-- The loop of main.py:219-226 (and 5777-5785): walk a sorted date list,
counting the longest streak of gaps of exactly one day.  `prev` is the
previous element, `cur` the current streak, `best` the maximum found. -/
def maxRunAux : Int → Nat → Nat → List Int → Nat
  | _, _, best, [] => best
  | prev, cur, best, x :: xs =>
      if x - prev = 1 then maxRunAux x (cur + 1) (max best (cur + 1)) xs
      else maxRunAux x 1 best xs

/-- `max_consecutive_found` computed from a (sorted) date list; the Python
loop starts with `max_consecutive_found = 1` even for a singleton list. -/
def maxRunList : List Int → Nat
  | [] => 1
  | x :: xs => maxRunAux x 1 1 xs

/-! ## Calendar oracle (`holidays_jp.py`)

The Japanese-holiday table is an external data source; per the spec it is
an oracle `is_holiday : date → bool`, passed here as a function argument
(the source uses the module-level singleton `jp_calendar`). -/

/-- `JapaneseCalendar.get_shifts_required_for_week` (holidays_jp.py:66-90):
count weekday (Mon-Fri) holidays over the seven days from `weekStart`,
then `max(4, 5 - weekday_holidays)`. -/
def getShiftsRequiredForWeek (isHol : Day → Bool) (weekStart : Day) : Int :=
  let weekdayHolidays : Int :=
    (dateRange weekStart (weekStart + 6)).foldl
      (fun acc d => if pyWeekday d < 5 ∧ isHol d then acc + 1 else acc) 0
  max 4 (5 - weekdayHolidays)

/-! ## Database rows (`models.py`) -/

/-- A `Schedule` row (models.py:149-166).  Fields not read by any modelled
code path (timestamps, `day_priority`, `is_overtime`) are omitted. -/
structure ScheduleRow where
  id : Nat
  department_id : Nat
  employee_id : Nat
  role_id : Option Nat
  shift_id : Option Nat
  date : Day
  start_time : Option Int
  end_time : Option Int
  status : String
  notes : String
deriving Repr, DecidableEq

/-- An `Attendance` row (models.py:221-238), restricted to the fields the
modelled paths touch. -/
structure AttendanceRow where
  id : Nat
  employee_id : Nat
  schedule_id : Option Nat
  date : Day
  worked_hours : ℚ
  overtime_hours : ℚ
  break_minutes : Int
deriving Repr, DecidableEq

/-- A `CheckInOut` row (models.py:199-214). -/
structure CheckInOutRow where
  id : Nat
  employee_id : Nat
  schedule_id : Option Nat
  date : Day
deriving Repr, DecidableEq

/-- A `CompOffRequest` row (models.py:384-398). -/
structure CompOffRequestRow where
  id : Nat
  employee_id : Nat
  comp_off_date : Day
  reason : String
  status : String
  schedule_id : Option Nat
deriving Repr, DecidableEq

/-- A `CompOffTracking` row (models.py:406-418). -/
structure CompOffTrackingRow where
  id : Nat
  employee_id : Nat
  earned_days : Int
  used_days : Int
  available_days : Int
  earned_date : Option Day
deriving Repr, DecidableEq

/-- A `CompOffDetail` row (models.py:425-437); `earned_month` is the linear
month index standing for the "YYYY-MM" string. -/
structure CompOffDetailRow where
  employee_id : Nat
  tracking_id : Nat
  type : String
  date : Day
  earned_month : Int
  notes : String
deriving Repr, DecidableEq

/-- A `LeaveRequest` row (models.py:177-192). -/
structure LeaveRequestRow where
  id : Nat
  employee_id : Nat
  start_date : Day
  end_date : Day
  leave_type : String
  duration_type : String
  reason : String
  status : String
deriving Repr, DecidableEq

/-- An `OvertimeRequest` row (models.py:344-360). -/
structure OvertimeRequestRow where
  id : Nat
  employee_id : Nat
  request_date : Day
  from_time : Option Int
  to_time : Option Int
  request_hours : ℚ
  status : String
deriving Repr, DecidableEq

/-- An `Employee` row (models.py:85-108), restricted to the fields the
scheduling logic reads. -/
structure EmployeeRow where
  id : Nat
  department_id : Nat
  role_id : Option Nat
  weekly_hours : ℚ
  daily_max_hours : ℚ
  is_active : Bool
deriving Repr, DecidableEq

/-- A `Role` row (models.py:124-140). -/
structure RoleRow where
  id : Nat
  department_id : Nat
  break_minutes : Int
  is_active : Bool
deriving Repr, DecidableEq

/-- A `Shift` row (models.py:299-314).  `schedule_config` is the per-weekday
JSON map `{day_name: {"enabled": bool}}`, modelled as an association list;
an entry `(day, none)` stands for a present day key whose value is not a
dict or lacks the `"enabled"` key, `(day, some b)` for `{"enabled": b}`,
and the empty list for an absent/empty/non-dict config. -/
structure ShiftRow where
  id : Nat
  role_id : Nat
  name : String
  start_time : Int
  end_time : Int
  min_emp : Int
  max_emp : Int
  schedule_config : List (String × Option Bool)
  is_active : Bool
deriving Repr, DecidableEq

/-- The relational store visible to one request.  `nextScheduleId` /
`nextCompOffTrackingId` model the autoincrement primary-key sequences
(ids handed out at `flush`). -/
structure DB where
  schedules : List ScheduleRow
  attendance : List AttendanceRow
  checkins : List CheckInOutRow
  compOffRequests : List CompOffRequestRow
  compOffTracking : List CompOffTrackingRow
  compOffDetails : List CompOffDetailRow
  leaveRequests : List LeaveRequestRow
  overtimeRequests : List OvertimeRequestRow
  employees : List EmployeeRow
  roles : List RoleRow
  shifts : List ShiftRow
  nextScheduleId : Nat
  nextCompOffTrackingId : Nat
deriving Repr, DecidableEq

/-- Equality of request outcomes is decidable (used to evaluate the
endpoints on concrete stores). -/
instance instDecEqExcept {e a : Type} [DecidableEq e] [DecidableEq a] :
    DecidableEq (Except e a) := fun x y =>
  match x, y with
  | .error u, .error v =>
    if h : u = v then isTrue (by rw [h]) else isFalse (fun hc => h (by injection hc))
  | .error _, .ok _ => isFalse (fun hc => Except.noConfusion hc)
  | .ok _, .error _ => isFalse (fun hc => Except.noConfusion hc)
  | .ok u, .ok v =>
    if h : u = v then isTrue (by rw [h]) else isFalse (fun hc => h (by injection hc))

/-! ## Constraint validators (main.py:105-231) -/

/-- Statuses counted as weekday coverage by `validate_5_shifts_per_week`
(main.py:133). -/
def weekdayCoverageStatuses : List String :=
  ["scheduled", "leave", "comp_off_taken", "comp_off_earned",
   "leave_half_morning", "leave_half_afternoon"]

/-- Statuses counted as weekend regular shifts (main.py:149). -/
def weekendRegularStatuses : List String :=
  ["scheduled", "leave", "leave_half_morning", "leave_half_afternoon"]

/-- Statuses counted by `validate_consecutive_shifts_limit` (main.py:205). -/
def consecutiveStatuses : List String :=
  ["scheduled", "leave", "comp_off_taken", "leave_half_morning", "leave_half_afternoon"]

/-- `if exclude_schedule_id: query = query.filter(Schedule.id != exclude_schedule_id)`
(main.py:138-139, 154-155, 208-209) — Python truthiness: the filter is
applied only when the argument is present and non-zero. -/
def applyExcludeTruthy (excl : Option Nat) (rows : List ScheduleRow) : List ScheduleRow :=
  match excl with
  | some eid => if eid ≠ 0 then rows.filter (fun r => decide (r.id ≠ eid)) else rows
  | none => rows

/-- `validate_5_shifts_per_week` (main.py:105-184).  Returns
`(is_valid, error_message)`; diagnostic interpolations in the error
strings are abbreviated. -/
def validate5ShiftsPerWeek (isHol : Day → Bool) (db : DB) (employeeId : Nat)
    (targetDate : Day) (excludeScheduleId : Option Nat) : Bool × String :=
  let ws := weekStartOf targetDate
  let we := ws + 6
  let required := getShiftsRequiredForWeek isHol ws
  let weekdayRows := applyExcludeTruthy excludeScheduleId
    (db.schedules.filter (fun s => decide (s.employee_id = employeeId ∧
      ws ≤ s.date ∧ s.date ≤ we ∧ s.status ∈ weekdayCoverageStatuses ∧
      pgDow s.date ∈ ([1, 2, 3, 4, 5] : List Int))))
  let weekdayCoverage : Int := weekdayRows.length
  let weekendRows := applyExcludeTruthy excludeScheduleId
    (db.schedules.filter (fun s => decide (s.employee_id = employeeId ∧
      ws ≤ s.date ∧ s.date ≤ we ∧ s.status ∈ weekendRegularStatuses ∧
      pgDow s.date ∈ ([6, 0] : List Int))))
  let weekendRegularShifts : Int := weekendRows.length
  if 5 ≤ pyWeekday targetDate then
    if required ≤ weekdayCoverage then
      (false, "Cannot assign weekend shift - weekday requirement already met")
    else if required ≤ weekdayCoverage + weekendRegularShifts then
      (false, "Cannot assign more shifts per week - weekly total reached")
    else (true, "")
  else
    if required ≤ weekdayCoverage then
      (false, "Cannot assign more weekday shifts per week")
    else (true, "")

/-- `validate_consecutive_shifts_limit` (main.py:187-231). -/
def validateConsecutiveShiftsLimit (db : DB) (employeeId : Nat) (targetDate : Day)
    (excludeScheduleId : Option Nat) (maxConsecutive : Nat) : Bool × String :=
  let ws := weekStartOf targetDate
  let we := ws + 6
  let rows := applyExcludeTruthy excludeScheduleId
    (db.schedules.filter (fun s => decide (s.employee_id = employeeId ∧
      ws ≤ s.date ∧ s.date ≤ we ∧ s.status ∈ consecutiveStatuses)))
  let allDates := sortedDedup (rows.map (fun s => s.date) ++ [targetDate])
  let found := maxRunList allDates
  if maxConsecutive < found then
    (false, "Cannot create consecutive shifts beyond the maximum")
  else (true, "")

/-! ## Manual schedule update (`update_schedule`, main.py:5267-5314) -/

/-- The subset of `ScheduleUpdate` fields relevant to the modelled flows. -/
structure ScheduleUpdateData where
  date : Option Day
  status : Option String
deriving Repr, DecidableEq

/-- The `setattr` loop of main.py:5299-5303 for the modelled fields. -/
def applyScheduleUpdate (db : DB) (scheduleId : Nat) (upd : ScheduleUpdateData) : DB :=
  { db with schedules := db.schedules.map (fun s =>
      if s.id = scheduleId then
        { s with date := upd.date.getD s.date, status := upd.status.getD s.status }
      else s) }

/-- `update_schedule` (main.py:5267-5314): find the row; when the update
carries a date different from the stored one, run both validators with
`exclude_schedule_id`; then apply the provided fields.  (The
manager-department authorization check is outside the model.) -/
def updateSchedule (isHol : Day → Bool) (db : DB) (scheduleId : Nat)
    (upd : ScheduleUpdateData) : Except String DB :=
  match db.schedules.find? (fun s => decide (s.id = scheduleId)) with
  | none => .error "Schedule not found"
  | some sched =>
    let dateChanges := match upd.date with
      | some nd => decide (nd ≠ sched.date)
      | none => false
    if dateChanges then
      let nd := upd.date.getD sched.date
      let v1 := validate5ShiftsPerWeek isHol db sched.employee_id nd (some scheduleId)
      if v1.1 then
        let v2 := validateConsecutiveShiftsLimit db sched.employee_id nd (some scheduleId) 5
        if v2.1 then .ok (applyScheduleUpdate db scheduleId upd)
        else .error v2.2
      else .error v1.2
    else .ok (applyScheduleUpdate db scheduleId upd)

/-! ## Manual schedule creation (`create_schedule`, main.py:5073-5264) -/

/-- The fields of `ScheduleCreate` read before the endpoint dies. -/
structure ScheduleCreateData where
  employee_id : Nat
  date : Day
  start_time : Int
  end_time : Int
  role_id : Option Nat
  shift_id : Option Nat
deriving Repr, DecidableEq

/-- Outcomes of `create_schedule`.  `pythonNameError` models an uncaught
Python `NameError` escaping the handler (surfaced by the app-level
exception handler as HTTP 500). -/
inductive CreateScheduleOutcome where
  | notFound (msg : String)
  | validationError (msg : String)
  | pythonNameError (name : String)
deriving Repr, DecidableEq

/-- The overnight-aware hour parser of main.py:5092-5099 (and 5133-5140):
`end - start` when `end_decimal > start_decimal`, else `24 - start + end`. -/
def overnightAwareHours (s e : Int) : ℚ :=
  if minutesToHours s < minutesToHours e then qSub (minutesToHours e) (minutesToHours s)
  else qAdd (qSub 24 (minutesToHours s)) (minutesToHours e)

/-- `create_schedule` (main.py:5073-5264).  After the employee lookup and
the two validators, the handler computes the candidate's `shift_hours`
(main.py:5092-5099, `overnightAwareHours`), the daily-overtime flags and
the same-day hour total (main.py:5112-5151) — all pure, with no observable
effect — and then builds the weekly-hours query at main.py:5154-5159,
which references `week_start`/`week_end`.  Neither name is ever assigned
in `create_schedule` and no module-level binding exists (`app.schemas`
exports only Pydantic model classes), so Python raises
`NameError: name 'week_start' is not defined` there on every call that
reaches that line; everything below — the overtime-approval payload of
main.py:5184-5240 and the row insert of main.py:5243-5256 — is dead code.
The store is returned unchanged (no commit before the exception). -/
def createSchedule (isHol : Day → Bool) (db : DB) (data : ScheduleCreateData) :
    CreateScheduleOutcome × DB :=
  match db.employees.find? (fun e => decide (e.id = data.employee_id)) with
  | none => (.notFound "Employee not found", db)
  | some _ =>
    let v1 := validate5ShiftsPerWeek isHol db data.employee_id data.date none
    if v1.1 then
      let v2 := validateConsecutiveShiftsLimit db data.employee_id data.date none 5
      if v2.1 then (.pythonNameError "week_start", db)
      else (.validationError v2.2, db)
    else (.validationError v1.2, db)

/-! ## Check-out and overtime reconciliation (`check_out`, main.py:1408-1591) -/

/-- The data resolved by `check_out` before the attendance computation:
check-in/check-out instants as minutes on the axis of `today`'s midnight,
the linked schedule row and its role (`check_in.schedule`,
`check_in.schedule.role`), the approved overtime request found for
(employee, today) — `scalar_one_or_none`, so at most one — and
`employee.daily_max_hours`. -/
structure CheckOutCtx where
  checkInTime : Int
  checkOutTime : Int
  schedule : Option ScheduleRow
  scheduleRole : Option RoleRow
  overtimeRequest : Option OvertimeRequestRow
  dailyMaxHours : ℚ
deriving Repr, DecidableEq

/-- The attendance computation of `check_out` (main.py:1479-1573): returns
`(worked_hours, break_minutes, overtime_hours)` as persisted on the
Attendance row.  Role break minutes are applied only when the gross time
is at least the break duration (main.py:1486-1488); with an approved
overtime request and a schedule, the overtime window branch
(main.py:1515-1555) clips `[shift_end, checkout]` by the approved window
and caps at `request_hours`; without a window — or when the schedule's
end time is unreadable (the `except` of main.py:1562-1568) — the
fallback `min(worked - daily_max, request_hours)` applies; with no
approved request, hours past `daily_max_hours` are recorded as
informational overtime (main.py:1569-1572). -/
def checkOutCompute (ctx : CheckOutCtx) : ℚ × Int × ℚ :=
  let totalMinutes := ctx.checkOutTime - ctx.checkInTime
  let breakMinutes :=
    match ctx.schedule, ctx.scheduleRole with
    | some _, some role => if role.break_minutes ≤ totalMinutes then role.break_minutes else 0
    | _, _ => 0
  let workedMinutes := max 0 (totalMinutes - breakMinutes)
  let workedHours := round2 (minutesToHours workedMinutes)
  let overtimeHours :=
    match ctx.overtimeRequest, ctx.schedule with
    | some ot, some sched =>
      match sched.end_time with
      | some shiftEnd =>
        match ot.from_time, ot.to_time with
        | some otStart, some otEnd =>
          let actualOtStart := max shiftEnd otStart
          let actualOtEnd := min ctx.checkOutTime otEnd
          if actualOtStart < actualOtEnd then
            round2 (min (minutesToHours (actualOtEnd - actualOtStart)) ot.request_hours)
          else 0
        | _, _ =>
          let actualOvertime := qSub workedHours ctx.dailyMaxHours
          if 0 < actualOvertime then round2 (min actualOvertime ot.request_hours) else 0
      | none =>
        let actualOvertime := qSub workedHours ctx.dailyMaxHours
        if 0 < actualOvertime then round2 (min actualOvertime ot.request_hours) else 0
    | _, _ =>
      if ctx.dailyMaxHours < workedHours then round2 (qSub workedHours ctx.dailyMaxHours) else 0
  (workedHours, breakMinutes, overtimeHours)

/-! ## Comp-off approval (`approve_comp_off`, main.py:4375-4487) -/

/-- Update the first list element satisfying `p` (mutating the single ORM
object returned by a query). -/
def updateFirst {α : Type} (p : α → Bool) (f : α → α) : List α → List α
  | [] => []
  | x :: xs => if p x then f x :: xs else x :: updateFirst p f xs

/-- `approve_comp_off` (main.py:4375-4487): approve the request, insert a
Schedule row for `comp_off_date` with status `comp_off_taken` and null
start/end times (main.py:4425-4437 — the endpoint performs no shift-time
discovery), link it back to the request, increment
`CompOffTracking.earned_days` (creating the tracking row if absent,
main.py:4449-4471), and append a `CompOffDetail` of type `'earned'` whose
`earned_month` is the month of `comp_off_date` (main.py:4473-4482).
`today` is `datetime.utcnow()`, used only for `earned_date`. -/
def approveCompOff (db : DB) (compOffId : Nat) (today : Day) : Except String DB :=
  match db.compOffRequests.find? (fun c => decide (c.id = compOffId)) with
  | none => .error "Comp-off request not found"
  | some compOff =>
    match db.employees.find? (fun e => decide (e.id = compOff.employee_id)) with
    | none => .error "Employee not found"
    | some employee =>
      let newId := db.nextScheduleId
      let row : ScheduleRow :=
        { id := newId, department_id := employee.department_id, employee_id := employee.id,
          role_id := employee.role_id, shift_id := none, date := compOff.comp_off_date,
          start_time := none, end_time := none, status := "comp_off_taken",
          notes := "Comp-Off Earned: " ++
            (if compOff.reason = "" then "Worked on non-shift day" else compOff.reason) }
      let approvedRequests := db.compOffRequests.map (fun (c : CompOffRequestRow) =>
        if c.id = compOffId then { c with status := "approved", schedule_id := some newId } else c)
      let db1 := { db with
        schedules := db.schedules ++ [row]
        nextScheduleId := newId + 1
        compOffRequests := approvedRequests }
      match db1.compOffTracking.filter (fun t => decide (t.employee_id = employee.id)) with
      | [] =>
        let tid := db1.nextCompOffTrackingId
        let tr : CompOffTrackingRow :=
          { id := tid, employee_id := employee.id, earned_days := 1, used_days := 0,
            available_days := 1, earned_date := some today }
        let detail : CompOffDetailRow :=
          { employee_id := employee.id, tracking_id := tid, type := "earned",
            date := compOff.comp_off_date, earned_month := monthIndexOfDay compOff.comp_off_date,
            notes := "Earned by working" }
        .ok { db1 with
              compOffTracking := db1.compOffTracking ++ [tr]
              nextCompOffTrackingId := tid + 1
              compOffDetails := db1.compOffDetails ++ [detail] }
      | [t] =>
        let t' := { t with
          earned_days := t.earned_days + 1
          available_days := t.earned_days + 1 - t.used_days
          earned_date := some today }
        let detail : CompOffDetailRow :=
          { employee_id := employee.id, tracking_id := t.id, type := "earned",
            date := compOff.comp_off_date, earned_month := monthIndexOfDay compOff.comp_off_date,
            notes := "Earned by working" }
        .ok { db1 with
              compOffTracking := updateFirst (fun tr => decide (tr.employee_id = employee.id))
                (fun _ => t') db1.compOffTracking,
              compOffDetails := db1.compOffDetails ++ [detail] }
      | _ :: _ :: _ => .error "Multiple comp-off tracking rows"

/-! ## Leave approval (`approve_leave`, main.py:3841-4009) -/

/-- The Schedule row materialized for one day of an approved paid/unpaid
leave (main.py:3888-3915). -/
def leaveRowForDay (emp : EmployeeRow) (lr : LeaveRequestRow) (d : Day) (newId : Nat) : ScheduleRow :=
  if lr.duration_type ≠ "" ∧ "half_day".data.isPrefixOf lr.duration_type.data then
    if lr.duration_type = "half_day_morning" then
      { id := newId, department_id := emp.department_id, employee_id := emp.id,
        role_id := emp.role_id, shift_id := none, date := d, start_time := some 0,
        end_time := some 720, status := "leave_half_morning",
        notes := "Half Day Leave (Morning) - " ++ lr.leave_type }
    else
      { id := newId, department_id := emp.department_id, employee_id := emp.id,
        role_id := emp.role_id, shift_id := none, date := d, start_time := some 720,
        end_time := some 1439, status := "leave_half_afternoon",
        notes := "Half Day Leave (Afternoon) - " ++ lr.leave_type }
  else
    { id := newId, department_id := emp.department_id, employee_id := emp.id,
      role_id := emp.role_id, shift_id := none, date := d, start_time := some 0,
      end_time := some 1439, status := "leave",
      notes := "Full Day Leave - " ++ lr.leave_type }

/-- The per-day loop of the paid/unpaid branch (main.py:3877-3918): insert
only when no non-cancelled row exists for (employee, date);
`scalar_one_or_none` raises when more than one exists. -/
def paidLeaveLoop (emp : EmployeeRow) (lr : LeaveRequestRow) : DB → List Day → Except String DB
  | db, [] => .ok db
  | db, d :: rest =>
    match db.schedules.filter (fun s => decide (s.employee_id = emp.id ∧ s.date = d ∧
        s.status ≠ "cancelled")) with
    | [] =>
      let row := leaveRowForDay emp lr d db.nextScheduleId
      paidLeaveLoop emp lr
        { db with schedules := db.schedules ++ [row], nextScheduleId := db.nextScheduleId + 1 } rest
    | [_] => paidLeaveLoop emp lr db rest
    | _ :: _ :: _ => .error "Multiple non-cancelled schedule rows for employee and date"

/-- The `comp_off_taken` row inserted per day by `approve_leave`
(main.py:3962-3976): `shift_id`, `start_time`, `end_time` all NULL. -/
def compOffTakenRow (emp : EmployeeRow) (lr : LeaveRequestRow) (d : Day) (nid : Nat) : ScheduleRow :=
  { id := nid, department_id := emp.department_id, employee_id := emp.id,
    role_id := emp.role_id, shift_id := none, date := d, start_time := none,
    end_time := none, status := "comp_off_taken",
    notes := "Comp-Off Taken: " ++ (if lr.reason = "" then "Using earned comp-off" else lr.reason) }

/-- The per-day loop of the comp-off branch (main.py:3946-3979): delete
every row of the employee on that date whose status is neither
`comp_off_taken` nor `cancelled`, then insert the `comp_off_taken` row. -/
def compOffUsageLoop (emp : EmployeeRow) (lr : LeaveRequestRow) : DB → List Day → DB
  | db, [] => db
  | db, d :: rest =>
    let remaining := db.schedules.filter (fun s => decide (¬ (s.employee_id = emp.id ∧
        s.date = d ∧ s.status ≠ "comp_off_taken" ∧ s.status ≠ "cancelled")))
    let row : ScheduleRow := compOffTakenRow emp lr d db.nextScheduleId
    compOffUsageLoop emp lr
      { db with schedules := remaining ++ [row], nextScheduleId := db.nextScheduleId + 1 } rest

/-- `approve_leave` (main.py:3841-4009).  The request is approved; for
paid/unpaid types, leave rows are materialized per day (guarded by the
non-cancelled existence check); for `comp_off`, the expiry check
(main.py:3926-3938, month of each date vs. month of `today`, "YYYY-MM"
comparison) aborts the whole request, else conflicting rows are deleted
and `comp_off_taken` rows inserted per day, `used_days` incremented and
`'used'` details appended when a tracking row exists (main.py:3981-4005).
Other leave types only flip the request status. -/
def approveLeave (db : DB) (leaveId : Nat) (today : Day) : Except String DB :=
  match db.leaveRequests.find? (fun l => decide (l.id = leaveId)) with
  | none => .error "Leave request not found"
  | some lr =>
    let approvedRequests := db.leaveRequests.map (fun (l : LeaveRequestRow) =>
      if l.id = leaveId then { l with status := "approved" } else l)
    let db1 := { db with leaveRequests := approvedRequests }
    match db1.employees.find? (fun e => decide (e.id = lr.employee_id)) with
    | none => .ok db1
    | some employee =>
      if lr.leave_type = "paid" ∨ lr.leave_type = "unpaid" then
        paidLeaveLoop employee lr db1 (dateRange lr.start_date lr.end_date)
      else if lr.leave_type = "comp_off" then
        if (dateRange lr.start_date lr.end_date).any (fun d =>
            decide (monthIndexOfDay d < monthIndexOfDay today)) then
          .error "Cannot use comp-off from a past month"
        else
          let db2 := compOffUsageLoop employee lr db1 (dateRange lr.start_date lr.end_date)
          let compOffDays : Int := ((dateRange lr.start_date lr.end_date).length : Int)
          match db2.compOffTracking.filter (fun t => decide (t.employee_id = employee.id)) with
          | [] => .ok db2
          | [t] =>
            let t' := { t with
              used_days := t.used_days + compOffDays
              available_days := t.earned_days - (t.used_days + compOffDays) }
            let newTracking := updateFirst (fun tr => decide (tr.employee_id = employee.id))
              (fun _ => t') db2.compOffTracking
            let db3 := { db2 with compOffTracking := newTracking }
            let details := (dateRange lr.start_date lr.end_date).map (fun d =>
              ({ employee_id := employee.id, tracking_id := t.id, type := "used", date := d,
                 earned_month := monthIndexOfDay d, notes := "Used" } : CompOffDetailRow))
            .ok { db3 with compOffDetails := db3.compOffDetails ++ details }
          | _ :: _ :: _ => .error "Multiple comp-off tracking rows"
      else .ok db1

/-! ## Schedule generator (`generate_schedules`, main.py:5340-5929) -/

/-- Statuses that count as worked shifts for the generator's hour totals
and its inline consecutive check (main.py:5665, 5683, 5764, 5799). -/
def genHourStatuses : List String := ["scheduled", "completed", "comp_off_earned"]

/-- `config.get(day_name)`: `none` = key absent; `some none` = key present
but without a usable `{"enabled": b}`; `some (some b)` = `{"enabled": b}`. -/
def configLookup (cfg : List (String × Option Bool)) (day : String) : Option (Option Bool) :=
  (cfg.find? (fun p => decide (p.1 = day))).map (fun p => p.2)

/-- `schedule_config.get(day_name, {}).get('enabled', False)` with the
isinstance guard (main.py:5594-5595). -/
def isDayEnabled (cfg : List (String × Option Bool)) (day : String) : Bool :=
  match configLookup cfg day with
  | some (some b) => b
  | _ => false

/-- Set (or append) a day entry in a config map. -/
def setConfigEntry : List (String × Option Bool) → String → Option Bool → List (String × Option Bool)
  | [], day, v => [(day, v)]
  | (k, old) :: rest, day, v =>
    if k = day then (day, v) :: rest else (k, old) :: setConfigEntry rest day v

/-- The all-days-enabled config installed for legacy shifts (main.py:5485-5493). -/
def allDaysEnabledConfig : List (String × Option Bool) :=
  dayNames.map (fun n => (n, some true))

/-- The schedule-config normalization of main.py:5478-5503: an empty or
invalid config becomes all-days-enabled (backward compatibility); in a
present config, each of the seven day keys that is missing, malformed, or
lacks `'enabled'` is set to `{'enabled': False}`. -/
def normalizeConfig (cfg : List (String × Option Bool)) : List (String × Option Bool) :=
  if cfg = [] then allDaysEnabledConfig
  else dayNames.foldl (fun c day =>
    match configLookup c day with
    | some (some _) => c
    | _ => setConfigEntry c day (some false)) cfg

/-- Normalization applied to a shift row (the in-place mutation of
`shift.schedule_config`). -/
def normalizeShift (sh : ShiftRow) : ShiftRow :=
  { sh with schedule_config := normalizeConfig sh.schedule_config }

/-- Rows sorted ascending by date (`order_by(Schedule.date)`; ties are
left in store order, which the SQL leaves unspecified). -/
def sortRowsByDate (rows : List ScheduleRow) : List ScheduleRow :=
  List.insertionSort (fun a b => a.date ≤ b.date) rows

/-- `(role.break_minutes or 0)` for an optional role reference resolved
against a role list; an unresolvable reference contributes 0 (the code's
`if sched.role else 0`). -/
def roleBreakMinutes (roles : List RoleRow) (rid : Option Nat) : Int :=
  match rid with
  | some r =>
    match roles.find? (fun ro => decide (ro.id = r)) with
    | some ro => ro.break_minutes
    | none => 0
  | none => 0

/-- Work hours of an existing schedule row (main.py:5822-5838):
`(end - start) - break` in hours, via the row's role relationship; rows
with a missing start or end time contribute nothing (the `except: pass`). -/
def rowWorkHours (db : DB) (s : ScheduleRow) : ℚ :=
  match s.start_time, s.end_time with
  | some st, some et =>
    qSub (minutesToHours (et - st)) (minutesToHours (roleBreakMinutes db.roles s.role_id))
  | _, _ => 0

/-- Accumulator state threaded through the generator's creation loop. -/
structure GenLoopState where
  db : DB
  schedulesCreated : Nat
  feedback : List String
  overtimeWarnings : List (Nat × Day)
deriving Repr, DecidableEq

/-- The typical-shift-time discovery for a `comp_off_earned` row
(main.py:5654-5696): first use any worked row of the same week other than
the target date (ascending by date, first row), else the most recent row
on the same weekday (`to_char(date, 'Day') ilike day_name`, descending by
date), else the full-day default 00:00-23:59. -/
def typicalTimes (db : DB) (empId : Nat) (d : Day) : Option Int × Option Int :=
  let ws := weekStartOf d
  let we := ws + 6
  let weekSched := (sortRowsByDate (db.schedules.filter (fun s =>
    decide (s.employee_id = empId ∧ ws ≤ s.date ∧ s.date ≤ we ∧ s.date ≠ d ∧
      s.status ∈ genHourStatuses)))).head?
  let fromWeek : Option (Int × Int) :=
    match weekSched with
    | some w =>
      match w.start_time, w.end_time with
      | some a, some b => some (a, b)
      | _, _ => none
    | none => none
  match fromWeek with
  | some (a, b) => (some a, some b)
  | none =>
    let sameDay := (sortRowsByDate (db.schedules.filter (fun s =>
      decide (s.employee_id = empId ∧ pyWeekday s.date = pyWeekday d ∧
        s.status ∈ genHourStatuses)))).getLast?
    match sameDay with
    | some sd =>
      match sd.start_time, sd.end_time with
      | some a, some b => (some a, some b)
      | _, _ => (some 0, some 1439)
    | none => (some 0, some 1439)

/-- The shift-assignment attempt for one employee (main.py:5740-5898):
no-double-booking guard, inline consecutive check over `genHourStatuses`
rows of the week, weekly/daily hour totals, the over-9-hours overtime
warning, the weekly-quota validator, and on success the insert of a
`scheduled` row; returns the updated state and whether a row was
assigned. -/
def genTryAssign (isHol : Day → Bool) (departmentId : Nat) (roles : List RoleRow)
    (shift : ShiftRow) (d : Day) (st : GenLoopState) (emp : EmployeeRow) :
    GenLoopState × Bool :=
  let db := st.db
  if db.schedules.any (fun s => decide (s.employee_id = emp.id ∧ s.date = d)) then (st, false)
  else
    let ws := weekStartOf d
    let we := ws + 6
    let weekRows := sortRowsByDate (db.schedules.filter (fun s =>
      decide (s.employee_id = emp.id ∧ ws ≤ s.date ∧ s.date ≤ we ∧ s.status ∈ genHourStatuses)))
    let weekDates := weekRows.map (fun s => s.date)
    let allDates := if d ∈ weekDates then weekDates else weekDates ++ [d]
    if 5 < maxRunList (sortInts allDates) then (st, false)
    else
      let existingHours := weekRows.foldl (fun acc s => qAdd acc (rowWorkHours db s)) 0
      let existingHoursToday := (weekRows.filter (fun s => decide (s.date = d))).foldl
        (fun acc s => qAdd acc (rowWorkHours db s)) 0
      let totalShiftHours := minutesToHours (shift.end_time - shift.start_time)
      let breakHours := minutesToHours (roleBreakMinutes roles (some shift.role_id))
      let workHours := qSub totalShiftHours breakHours
      let dailyMax := if emp.daily_max_hours = 0 then (8 : ℚ) else emp.daily_max_hours
      let st1 := if (9 : ℚ) < qAdd existingHoursToday totalShiftHours then
          { st with overtimeWarnings := st.overtimeWarnings ++ [(emp.id, d)] }
        else st
      if qAdd existingHours workHours ≤ emp.weekly_hours ∧
          qAdd existingHoursToday workHours ≤ dailyMax then
        if (validate5ShiftsPerWeek isHol db emp.id d none).1 then
          let row : ScheduleRow :=
            { id := db.nextScheduleId, department_id := departmentId, employee_id := emp.id,
              role_id := some shift.role_id, shift_id := some shift.id, date := d,
              start_time := some shift.start_time, end_time := some shift.end_time,
              status := "scheduled", notes := "" }
          ({ st1 with
             db := { db with schedules := db.schedules ++ [row]
                             nextScheduleId := db.nextScheduleId + 1 }
             schedulesCreated := st1.schedulesCreated + 1 }, true)
        else (st1, false)
      else (st1, false)

/-- Per-employee step of the generator (main.py:5614-5898): if the
employee has an approved leave or comp-off request covering the date,
materialize the corresponding leave/comp-off row (guarded by the
existing-row check) and assign no shift; otherwise attempt the shift
assignment.  The second component reports whether a shift was assigned. -/
def processEmployee (isHol : Day → Bool) (departmentId : Nat) (roles : List RoleRow)
    (shift : ShiftRow) (d : Day) (st : GenLoopState) (emp : EmployeeRow) :
    GenLoopState × Bool :=
  let db := st.db
  let leaveReq := db.leaveRequests.find? (fun l => decide (l.employee_id = emp.id ∧
    l.start_date ≤ d ∧ d ≤ l.end_date ∧ l.status = "approved"))
  let compOffReq := db.compOffRequests.find? (fun c => decide (c.employee_id = emp.id ∧
    c.comp_off_date = d ∧ c.status = "approved"))
  if leaveReq.isSome ∨ compOffReq.isSome then
    if db.schedules.any (fun s => decide (s.employee_id = emp.id ∧ s.date = d)) then (st, false)
    else
      let info : String × Option Int × Option Int × String :=
        match compOffReq with
        | some c =>
          let times := typicalTimes db emp.id d
          ("comp_off_earned", times.1, times.2,
            "Comp-Off Earned: " ++ (if c.reason = "" then "Worked on non-shift day" else c.reason))
        | none =>
          match leaveReq with
          | some l =>
            if l.leave_type = "comp_off" then
              ("comp_off_taken", none, none,
                "Comp-Off Taken: " ++ (if l.reason = "" then "Using earned comp-off" else l.reason))
            else if l.duration_type = "half_day_morning" then
              ("leave_half_morning", some 0, some 720,
                "Half Day Leave (Morning) - " ++ l.leave_type)
            else if l.duration_type = "half_day_afternoon" then
              ("leave_half_afternoon", some 720, some 1439,
                "Half Day Leave (Afternoon) - " ++ l.leave_type)
            else ("leave", some 0, some 1439, "Full Day Leave - " ++ l.leave_type)
          | none => ("leave", some 0, some 1439, "")
      let row : ScheduleRow :=
        { id := db.nextScheduleId, department_id := departmentId, employee_id := emp.id,
          role_id := some shift.role_id, shift_id := some shift.id, date := d,
          start_time := info.2.1, end_time := info.2.2.1, status := info.1,
          notes := info.2.2.2 }
      ({ st with
         db := { db with schedules := db.schedules ++ [row]
                         nextScheduleId := db.nextScheduleId + 1 }
         schedulesCreated := st.schedulesCreated + 1 }, false)
  else genTryAssign isHol departmentId roles shift d st emp

/-- The employee loop for one shift occurrence (main.py:5614-5896),
breaking once `assigned_count` reaches `max_emp` right after an
assignment. -/
def employeesForShiftLoop (isHol : Day → Bool) (departmentId : Nat) (roles : List RoleRow)
    (shift : ShiftRow) (d : Day) : GenLoopState → Int → List EmployeeRow → GenLoopState × Int
  | st, assignedCount, [] => (st, assignedCount)
  | st, assignedCount, emp :: rest =>
    match processEmployee isHol departmentId roles shift d st emp with
    | (st', true) =>
      if shift.max_emp ≤ assignedCount + 1 then (st', assignedCount + 1)
      else employeesForShiftLoop isHol departmentId roles shift d st' (assignedCount + 1) rest
    | (st', false) => employeesForShiftLoop isHol departmentId roles shift d st' assignedCount rest

/-- One shift on one date (main.py:5585-5902): the day-enabled check
(fail-safe skip on empty config), the eligible-employee loop, and the
under-staffing warning. -/
def processShift (isHol : Day → Bool) (departmentId : Nat) (roles : List RoleRow)
    (employees : List EmployeeRow) (d : Day) (st : GenLoopState) (shift : ShiftRow) :
    GenLoopState :=
  let shouldSkip : Bool :=
    if shift.schedule_config = [] then true else !(isDayEnabled shift.schedule_config (dayName d))
  if shouldSkip then st
  else
    let eligible := employees.filter (fun e =>
      decide (e.role_id = none ∨ e.role_id = some shift.role_id))
    let result := employeesForShiftLoop isHol departmentId roles shift d st 0 eligible
    if result.2 < shift.min_emp then
      { result.1 with feedback := result.1.feedback ++ ["Warning: understaffed shift occurrence"] }
    else result.1

/-- One date of the main loop (main.py:5575-5904): public holidays are
skipped wholesale. -/
def processDate (isHol : Day → Bool) (departmentId : Nat) (roles : List RoleRow)
    (shifts : List ShiftRow) (employees : List EmployeeRow) (st : GenLoopState) (d : Day) :
    GenLoopState :=
  if isHol d then st
  else shifts.foldl (processShift isHol departmentId roles employees d) st

/-- The deletion criterion of the regenerate path (main.py:5401-5443):
department rows in range with status `scheduled` or `comp_off_taken`. -/
def deleteCriteria (departmentId : Nat) (startDate endDate : Day) (r : ScheduleRow) : Bool :=
  decide (r.department_id = departmentId ∧ startDate ≤ r.date ∧ r.date ≤ endDate ∧
    r.status ∈ (["scheduled", "comp_off_taken"] : List String))

/-- `schedule_ids_to_delete` of main.py:5406-5409. -/
def regenDeleteIds (db : DB) (departmentId : Nat) (startDate endDate : Day) : List Nat :=
  (db.schedules.filter (deleteCriteria departmentId startDate endDate)).map (fun r => r.id)

/-- Whether an optional `schedule_id` reference points into the deleted set. -/
def refersDeletedRow (ids : List Nat) (sid : Option Nat) : Bool :=
  match sid with
  | some i => decide (i ∈ ids)
  | none => false

/-- The committed deletion phase of `regenerate=true` (main.py:5395-5445):
collect the ids to delete, remove dependent Attendance rows, null
`CheckInOut.schedule_id` and `CompOffRequest.schedule_id` references, then
delete the rows themselves. -/
def regenerateDelete (db : DB) (departmentId : Nat) (startDate endDate : Day) : DB :=
  let deleteIds := regenDeleteIds db departmentId startDate endDate
  let db1 :=
    if deleteIds ≠ [] then
      { db with
        attendance := db.attendance.filter (fun a => !(refersDeletedRow deleteIds a.schedule_id))
        checkins := db.checkins.map (fun c =>
          if refersDeletedRow deleteIds c.schedule_id then { c with schedule_id := none } else c)
        compOffRequests := db.compOffRequests.map (fun c =>
          if refersDeletedRow deleteIds c.schedule_id then { c with schedule_id := none } else c) }
    else db
  { db1 with schedules := db1.schedules.filter (fun r =>
      !(deleteCriteria departmentId startDate endDate r)) }

/-- The response shape of `/schedules/generate`; the overtime-warning
dicts are modelled by their count. -/
structure GenResult where
  success : Bool
  schedulesCreated : Nat
  requiresConfirmation : Bool
  existingCount : Nat
  feedback : List String
  overtimeWarningCount : Nat
deriving Repr, DecidableEq

/-- `generate_schedules` (main.py:5340-5929): the existing-rows pre-check
with the confirmation-required early return, the committed regenerate
deletion, the role/shift/employee fetches with their early returns, shift
schedule-config normalization (persisted only on the path that reaches
the final commit), and the date loop. -/
def generateSchedules (isHol : Day → Bool) (db : DB) (departmentId : Nat)
    (startDate endDate : Day) (regenerate : Bool) : GenResult × DB :=
  let existing := db.schedules.filter (fun s => decide (s.department_id = departmentId ∧
    startDate ≤ s.date ∧ s.date ≤ endDate))
  if existing ≠ [] ∧ regenerate = false then
    ({ success := false, schedulesCreated := 0, requiresConfirmation := true,
       existingCount := existing.length,
       feedback := ["Found existing schedules for this date range",
                    "Do you want to regenerate and replace them?"],
       overtimeWarningCount := 0 }, db)
  else
    let db1 := if existing ≠ [] ∧ regenerate then regenerateDelete db departmentId startDate endDate
      else db
    let roles := db1.roles.filter (fun r => decide (r.department_id = departmentId ∧
      r.is_active = true))
    if roles = [] then
      ({ success := true, schedulesCreated := 0, requiresConfirmation := false,
         existingCount := 0, feedback := ["No active roles found in your department"],
         overtimeWarningCount := 0 }, db1)
    else
      let roleIds := roles.map (fun r => r.id)
      let shifts := (db1.shifts.filter (fun (sh : ShiftRow) => decide (sh.role_id ∈ roleIds ∧
        sh.is_active = true))).map normalizeShift
      if shifts = [] then
        ({ success := true, schedulesCreated := 0, requiresConfirmation := false,
           existingCount := 0, feedback := ["No active shifts found in your roles"],
           overtimeWarningCount := 0 }, db1)
      else
        let employees := db1.employees.filter (fun e => decide (e.department_id = departmentId ∧
          e.is_active = true))
        if employees = [] then
          ({ success := true, schedulesCreated := 0, requiresConfirmation := false,
             existingCount := 0, feedback := ["No active employees found in your department"],
             overtimeWarningCount := 0 }, db1)
        else
          let st0 : GenLoopState :=
            { db := db1, schedulesCreated := 0, feedback := [], overtimeWarnings := [] }
          let stF := (dateRange startDate endDate).foldl
            (processDate isHol departmentId roles shifts employees) st0
          let normShifts := stF.db.shifts.map (fun (sh : ShiftRow) =>
            if decide (sh.role_id ∈ roleIds ∧ sh.is_active = true) then normalizeShift sh else sh)
          let dbOut := { stF.db with shifts := normShifts }
          ({ success := true, schedulesCreated := stF.schedulesCreated,
             requiresConfirmation := false, existingCount := 0,
             feedback := "Successfully generated schedules" :: stF.feedback,
             overtimeWarningCount := stF.overtimeWarnings.length }, dbOut)

/-! ## Claim-side measures

Definitions phrased after the spec's wording, used to state the claims
against the embedded code. -/

/-- Two schedule rows do not double-book: they cannot both be
non-cancelled rows of the same employee on the same date. -/
def noDouble (a b : ScheduleRow) : Prop :=
  a.status ≠ "cancelled" → b.status ≠ "cancelled" →
    a.employee_id = b.employee_id → a.date = b.date → False

instance : DecidableRel noDouble := fun a b => by
  unfold noDouble
  infer_instance

/-- The spec's invariant: at most one non-cancelled Schedule row per
(employee, date). -/
def scheduleInvariant (db : DB) : Prop := db.schedules.Pairwise noDouble

instance instDecScheduleInvariant (db : DB) : Decidable (scheduleInvariant db) :=
  inferInstanceAs (Decidable (db.schedules.Pairwise noDouble))

/-- The spec's "weekday coverage": the employee's Monday-Friday rows of
the target week with a coverage status, a row with id equal to
`exclude_schedule_id` excluded. -/
def claimWeekdayCoverage (db : DB) (employeeId : Nat) (targetDate : Day)
    (excl : Option Nat) : Int :=
  ((db.schedules.filter (fun s => decide (s.employee_id = employeeId ∧
    weekStartOf targetDate ≤ s.date ∧ s.date ≤ weekStartOf targetDate + 6 ∧
    s.status ∈ weekdayCoverageStatuses ∧ pyWeekday s.date < 5 ∧
    some s.id ≠ excl))).length : Int)

/-- The spec's "weekend regular shifts": Saturday/Sunday rows of the
target week with a regular-shift status, the excluded row removed. -/
def claimWeekendRegular (db : DB) (employeeId : Nat) (targetDate : Day)
    (excl : Option Nat) : Int :=
  ((db.schedules.filter (fun s => decide (s.employee_id = employeeId ∧
    weekStartOf targetDate ≤ s.date ∧ s.date ≤ weekStartOf targetDate + 6 ∧
    s.status ∈ weekendRegularStatuses ∧ 5 ≤ pyWeekday s.date ∧
    some s.id ≠ excl))).length : Int)

/-- Length of the longest run of calendar-consecutive days among an
employee's rows with one of the given statuses **within the Mon-Sun week
containing `d`** (the code's own run measure on the sorted, deduplicated
date list). -/
def weekRunLen (db : DB) (employeeId : Nat) (d : Day) (statuses : List String) : Nat :=
  maxRunList (sortedDedup ((db.schedules.filter (fun s =>
    decide (s.employee_id = employeeId ∧ weekStartOf d ≤ s.date ∧
      s.date ≤ weekStartOf d + 6 ∧ s.status ∈ statuses))).map (fun s => s.date)))

/-- Length of the longest run of calendar-consecutive days among all of an
employee's rows with one of the given statuses, across week boundaries. -/
def allRunLen (db : DB) (employeeId : Nat) (statuses : List String) : Nat :=
  maxRunList (sortedDedup ((db.schedules.filter (fun s =>
    decide (s.employee_id = employeeId ∧ s.status ∈ statuses))).map (fun s => s.date)))

/-- Total `earned_days` recorded for an employee across their
`CompOffTracking` rows (the schema keeps at most one per employee). -/
def trackingEarnedDays (db : DB) (employeeId : Nat) : Int :=
  ((db.compOffTracking.filter (fun t => decide (t.employee_id = employeeId))).map
    (fun t => t.earned_days)).sum

/-- The store produced by the C1 approval on `c1db` (used to instantiate
the amended C1 statement at a concrete input). -/
def c1postOf (r : Except String DB) (fallback : DB) : DB :=
  match r with
  | .ok d => d
  | .error _ => fallback

/-- Frame of the generator's creation loop relative to a starting store:
schedules only grow, appended rows carry fresh ids, and every other table
is untouched. -/
def GenFrame (pre post : DB) : Prop :=
  (∃ ext, post.schedules = pre.schedules ++ ext ∧ ∀ r ∈ ext, pre.nextScheduleId ≤ r.id) ∧
  pre.nextScheduleId ≤ post.nextScheduleId ∧
  post.attendance = pre.attendance ∧
  post.checkins = pre.checkins ∧
  post.compOffRequests = pre.compOffRequests ∧
  post.compOffTracking = pre.compOffTracking ∧
  post.compOffDetails = pre.compOffDetails ∧
  post.leaveRequests = pre.leaveRequests ∧
  post.overtimeRequests = pre.overtimeRequests ∧
  post.employees = pre.employees ∧
  post.roles = pre.roles ∧
  post.shifts = pre.shifts

/-! ## Concrete stores used by witnesses and counterexamples

Day numbers: 4 = 1970-01-05 (a Monday), 6..11 = 1970-01-07 (Wednesday)
through 1970-01-12 (the Monday of the following week), 25 = 1970-01-26;
20447 = 2026-01-05 (Monday) and 20454 = 2026-01-12 (the same weekday one
week later). -/

/-- An empty store. -/
def emptyDB : DB :=
  { schedules := [], attendance := [], checkins := [], compOffRequests := [],
    compOffTracking := [], compOffDetails := [], leaveRequests := [], overtimeRequests := [],
    employees := [], roles := [], shifts := [], nextScheduleId := 1, nextCompOffTrackingId := 1 }

/-- Test-data builder: a schedule row of department 1. -/
def mkRow (i e : Nat) (d : Day) (st et : Option Int) (status : String) : ScheduleRow :=
  { id := i, department_id := 1, employee_id := e, role_id := some 1, shift_id := none,
    date := d, start_time := st, end_time := et, status := status, notes := "" }

/-- Test-data: employee 1 of department 1 with the default hour caps. -/
def emp1 : EmployeeRow :=
  { id := 1, department_id := 1, role_id := some 1, weekly_hours := 40,
    daily_max_hours := 8, is_active := true }

/-- Test-data: a pending comp-off (earning) request of employee 1. -/
def compOffReq1 (d : Day) : CompOffRequestRow :=
  { id := 1, employee_id := 1, comp_off_date := d, reason := "", status := "pending",
    schedule_id := none }

/-- Store for the C1 counterexample: a pending comp-off request for
2026-01-12 and a typical shift 09:00-18:00 on the same weekday one week
earlier. -/
def c1db : DB :=
  { emptyDB with
    schedules := [mkRow 1 1 20447 (some 540) (some 1080) "scheduled"]
    compOffRequests := [compOffReq1 20454]
    employees := [emp1]
    nextScheduleId := 2 }

/-- The store after the C1 approval on `c1db`. -/
def c1post : DB := c1postOf (approveCompOff c1db 1 20454) c1db

/-- Store for the C2 counterexample: employee 1 already holds a
`scheduled` row on the very date of the pending comp-off request. -/
def c2db : DB :=
  { emptyDB with
    schedules := [mkRow 1 1 20454 (some 540) (some 1080) "scheduled"]
    compOffRequests := [compOffReq1 20454]
    employees := [emp1]
    nextScheduleId := 2 }

/-- The store after the C2 comp-off approval on `c2db`. -/
def c2post : DB := c1postOf (approveCompOff c2db 1 20454) c2db

/-- A pending one-day paid leave request of employee 1 (C2 witness). -/
def c2lr : LeaveRequestRow :=
  { id := 1, employee_id := 1, start_date := 20454, end_date := 20454,
    leave_type := "paid", duration_type := "full_day", reason := "", status := "pending" }

/-- Store for the C2 witness of the paid-leave branch. -/
def c2ldb : DB :=
  { emptyDB with leaveRequests := [c2lr], employees := [emp1], nextScheduleId := 1 }

/-- The store after approving the paid leave of `c2ldb`. -/
def c2lpost : DB := c1postOf (approveLeave c2ldb 1 20454) c2ldb

/-- Store for the C7 counterexample: five consecutive `scheduled` days
Wednesday-Sunday (days 6-10), plus a movable row (id 6) on day 25. -/
def c7db : DB :=
  { emptyDB with
    schedules := [mkRow 1 1 6 (some 540) (some 1080) "scheduled",
                  mkRow 2 1 7 (some 540) (some 1080) "scheduled",
                  mkRow 3 1 8 (some 540) (some 1080) "scheduled",
                  mkRow 4 1 9 (some 540) (some 1080) "scheduled",
                  mkRow 5 1 10 (some 540) (some 1080) "scheduled",
                  mkRow 6 1 25 (some 540) (some 1080) "scheduled"]
    employees := [emp1]
    nextScheduleId := 7 }

/-- The C7 counterexample update: move row 6 to day 11, the Monday right
after the Wednesday-Sunday run. -/
def c7upd : ScheduleUpdateData := { date := some 11, status := none }

/-- The store after the C7 update is applied. -/
def c7post : DB := applyScheduleUpdate c7db 6 c7upd

/-- The check-out context of the spec's overtime scenario: check-in 09:00,
check-out 19:30, shift ending 18:00 with a 60-minute break role, approved
overtime window 18:00-20:00 for 1.5 hours, daily cap 8. -/
def c4Ot : OvertimeRequestRow :=
  { id := 1, employee_id := 1, request_date := 20454, from_time := some 1080,
    to_time := some 1200, request_hours := Rat.divInt 3 2, status := "approved" }

/-- The role of the scenario's shift, with a 60-minute break. -/
def c4Role : RoleRow := { id := 1, department_id := 1, break_minutes := 60, is_active := true }

/-- The assembled check-out context of the scenario. -/
def c4Ctx : CheckOutCtx :=
  { checkInTime := 540, checkOutTime := 1170,
    schedule := some (mkRow 1 1 20454 (some 540) (some 1080) "scheduled"),
    scheduleRole := some c4Role,
    overtimeRequest := some c4Ot,
    dailyMaxHours := 8 }

/-- Store for the C6 failing input: one employee, no schedules. -/
def c6db : DB := { emptyDB with employees := [emp1] }

/-- The C6 failing request: a 09:00-19:00 shift (10 gross hours, so the
claim expects an overtime-approval payload). -/
def c6req : ScheduleCreateData :=
  { employee_id := 1, date := 20454, start_time := 540, end_time := 1140,
    role_id := some 1, shift_id := none }

/-- Store for the C9 witness: one existing department-1 row inside the
generation range. -/
def c9db : DB :=
  { emptyDB with
    schedules := [mkRow 1 1 20454 (some 540) (some 1080) "scheduled"]
    employees := [emp1]
    nextScheduleId := 2 }

/-- Store for the C5 witness: a deletable `scheduled` row with a dependent
attendance row and a referencing comp-off request, plus a `leave` row that
must be preserved. -/
def c5db : DB :=
  { emptyDB with
    schedules := [mkRow 1 1 20454 (some 540) (some 1080) "scheduled",
                  mkRow 2 1 20455 none none "leave"]
    attendance := [{ id := 1, employee_id := 1, schedule_id := some 1, date := 20454,
                     worked_hours := 0, overtime_hours := 0, break_minutes := 0 }]
    checkins := [{ id := 1, employee_id := 1, schedule_id := some 1, date := 20454 }]
    compOffRequests := [{ id := 1, employee_id := 1, comp_off_date := 20500, reason := "",
                          status := "approved", schedule_id := some 1 }]
    employees := [emp1]
    nextScheduleId := 3 }

/-- The C10 witness leave request: comp-off leave over days 20454-20455. -/
def c10lr : LeaveRequestRow :=
  { id := 1, employee_id := 1, start_date := 20454, end_date := 20455,
    leave_type := "comp_off", duration_type := "full_day", reason := "", status := "pending" }

/-- Store for the C10 witness: a `scheduled` row sits on the first day of
the comp-off leave range. -/
def c10db : DB :=
  { emptyDB with
    schedules := [mkRow 1 1 20454 (some 540) (some 1080) "scheduled"]
    leaveRequests := [c10lr]
    employees := [emp1]
    nextScheduleId := 2 }

/-- The store produced by approving the C10 leave request on day 20454:
the `scheduled` row is gone, a NULL-time `comp_off_taken` row covers each
day of the range, and the request is approved. -/
def c10post : DB :=
  { emptyDB with
    schedules := [compOffTakenRow emp1 c10lr 20454 2, compOffTakenRow emp1 c10lr 20455 3]
    leaveRequests := [{ c10lr with status := "approved" }]
    employees := [emp1]
    nextScheduleId := 4 }

/-! # Theorems -/

/-! ## Arithmetic helper lemmas -/

theorem ratDen_cast_ne_zero (q : ℚ) : ((q.den : ℤ) : ℚ) ≠ 0 := by
  exact_mod_cast fun h => q.den_nz (by exact_mod_cast h)

theorem ratDenQ_ne_zero (q : ℚ) : ((q.den : ℕ) : ℚ) ≠ 0 :=
  Nat.cast_ne_zero.mpr q.den_nz

theorem qAdd_eq (a b : ℚ) : qAdd a b = a + b := by
  unfold qAdd
  conv_rhs => rw [← Rat.num_div_den a, ← Rat.num_div_den b]
  rw [Rat.divInt_eq_div]
  push_cast
  field_simp

theorem qSub_eq (a b : ℚ) : qSub a b = a - b := by
  unfold qSub
  conv_rhs => rw [← Rat.num_div_den a, ← Rat.num_div_den b]
  rw [Rat.divInt_eq_div]
  push_cast
  field_simp
  ring

theorem minutesToHours_eq (m : Int) : minutesToHours m = (m : ℚ) / 60 := by
  unfold minutesToHours
  rw [Rat.divInt_eq_div]
  norm_num

/-- A counting fold (`acc += 1 when p`) equals the starting value plus the
filtered length. -/
theorem foldl_count_eq_filter_length {α : Type} (p : α → Prop) [DecidablePred p] :
    ∀ (l : List α) (acc : Int),
      l.foldl (fun a x => if p x then a + 1 else a) acc =
        acc + ((l.filter (fun x => decide (p x))).length : Int) := by
  intro l
  induction l with
  | nil => simp
  | cons x xs ih =>
    intro acc
    by_cases h : p x
    · simp [List.foldl, h, ih]
      omega
    · simp [List.foldl, h, ih]

/-! ## C8 — weekly quota from weekday holidays -/

/-- C8: for every Monday `weekStart`, `required_shifts_for_week(weekStart)`
equals `max(4, 5 - h)` where `h` is the number of Monday-through-Friday
public holidays among the seven days `[weekStart, weekStart + 6]`. -/
theorem required_shifts_for_week_spec (isHol : Day → Bool) (weekStart : Day)
    (_hMonday : pyWeekday weekStart = 0) :
    getShiftsRequiredForWeek isHol weekStart =
      max 4 (5 - (((dateRange weekStart (weekStart + 6)).filter (fun d =>
        decide (pyWeekday d < 5 ∧ isHol d))).length : Int)) := by
  unfold getShiftsRequiredForWeek
  rw [foldl_count_eq_filter_length (fun d => pyWeekday d < 5 ∧ isHol d)]
  simp

/-- Witness for C8 at the Monday 1970-01-05 (day 4) with one weekday
holiday (day 6, a Wednesday): the quota evaluates to `max 4 (5 - 1) = 4`. -/
theorem required_shifts_for_week_spec_witness :
    getShiftsRequiredForWeek (fun d => decide (d = 6)) 4 =
      max 4 (5 - (((dateRange 4 (4 + 6)).filter (fun d =>
        decide (pyWeekday d < 5 ∧ (fun d : Day => decide (d = 6)) d))).length : Int)) ∧
    getShiftsRequiredForWeek (fun d => decide (d = 6)) 4 = 4 :=
  ⟨required_shifts_for_week_spec (fun d => decide (d = 6)) 4 (by decide), by decide⟩

/-! ## C6 — manual creation dies on an unbound name before the
overtime-approval payload -/

/-- C6 (code bug): on the concrete store `c6db` and request `c6req`
(09:00-19:00, ten gross hours, so the claim expects a
`requires_overtime_approval` payload), both validators pass, yet
`create_schedule` raises `NameError: name 'week_start' is not defined` at
main.py:5157 and neither returns the payload nor creates a row; the store
is unchanged.  The same `NameError` is reached by every request that
passes both validators, because the weekly-hours query referencing the
unbound `week_start` sits on the unconditional path. -/
theorem create_schedule_week_start_name_error :
    (validate5ShiftsPerWeek (fun _ => false) c6db 1 20454 none).1 = true ∧
    (validateConsecutiveShiftsLimit c6db 1 20454 none 5).1 = true ∧
    createSchedule (fun _ => false) c6db c6req =
      (CreateScheduleOutcome.pythonNameError "week_start", c6db) :=
  ⟨by decide, by decide, by decide⟩

/-! ## C9 — confirmation-required pre-check performs no mutation -/

/-- C9: calling the generator with `regenerate = false` while Schedule
rows exist for the department in `[startDate, endDate]` returns a
response with `requires_confirmation` set and `existing_count` equal to
the number of such rows, and leaves every table of the store exactly as
it was. -/
theorem generate_requires_confirmation_no_mutation (isHol : Day → Bool) (db : DB)
    (departmentId : Nat) (startDate endDate : Day)
    (hExisting : db.schedules.filter (fun s => decide (s.department_id = departmentId ∧
      startDate ≤ s.date ∧ s.date ≤ endDate)) ≠ []) :
    (generateSchedules isHol db departmentId startDate endDate false).1.requiresConfirmation
        = true ∧
    (generateSchedules isHol db departmentId startDate endDate false).1.existingCount =
      (db.schedules.filter (fun s => decide (s.department_id = departmentId ∧
        startDate ≤ s.date ∧ s.date ≤ endDate))).length ∧
    (generateSchedules isHol db departmentId startDate endDate false).2 = db := by
  simp only [generateSchedules]
  rw [if_pos (And.intro hExisting trivial)]
  exact ⟨rfl, rfl, rfl⟩

/-- Witness for C9: on `c9db` (one department-1 row on day 20454) over
`[20450, 20460]` with `regenerate = false`, the pre-check fires and the
store is returned untouched. -/
theorem generate_requires_confirmation_no_mutation_witness :
    (generateSchedules (fun _ => false) c9db 1 20450 20460 false).1.requiresConfirmation
        = true ∧
    (generateSchedules (fun _ => false) c9db 1 20450 20460 false).1.existingCount =
      (c9db.schedules.filter (fun s => decide (s.department_id = 1 ∧
        (20450 : Day) ≤ s.date ∧ s.date ≤ 20460))).length ∧
    (generateSchedules (fun _ => false) c9db 1 20450 20460 false).2 = c9db :=
  generate_requires_confirmation_no_mutation (fun _ => false) c9db 1 20450 20460 (by decide)

/-! ## C3 — the weekly-shift-quota validator's decision rule -/

/-- PostgreSQL `dow ∈ {1..5}` picks out exactly the Python weekdays
Monday-Friday. -/
theorem pgDow_weekday_iff (d : Day) :
    pgDow d ∈ ([1, 2, 3, 4, 5] : List Int) ↔ pyWeekday d < 5 := by
  unfold pgDow pyWeekday
  simp only [List.mem_cons, List.not_mem_nil, or_false]
  omega

/-- PostgreSQL `dow ∈ {6, 0}` picks out exactly Saturday and Sunday. -/
theorem pgDow_weekend_iff (d : Day) :
    pgDow d ∈ ([6, 0] : List Int) ↔ 5 ≤ pyWeekday d := by
  unfold pgDow pyWeekday
  simp only [List.mem_cons, List.not_mem_nil, or_false]
  omega

/-- On a store with no zero ids, the truthiness-guarded exclusion filter
equals the plain "id differs from the argument" filter. -/
theorem applyExcludeTruthy_eq_filter (excl : Option Nat) (p : ScheduleRow → Bool)
    (l : List ScheduleRow) (hwf : ∀ r ∈ l, r.id ≠ 0) :
    applyExcludeTruthy excl (l.filter p) =
      l.filter (fun r => p r && decide (some r.id ≠ excl)) := by
  match excl with
  | none =>
    simp [applyExcludeTruthy]
  | some eid =>
    by_cases h0 : eid = 0
    · subst h0
      simp only [applyExcludeTruthy, ne_eq, not_true_eq_false, if_false, reduceIte]
      apply List.filter_congr
      intro r hr
      have := hwf r hr
      simp [this]
    · simp only [applyExcludeTruthy, if_pos h0, List.filter_filter]
      apply List.filter_congr
      intro r _
      cases hp : p r <;> simp [hp]

/-- C3: the weekly-shift-quota validator rejects exactly when the target
date is a weekend day and (weekday coverage already meets the required
count, or weekday coverage plus weekend regular shifts meets it), or the
target date is a weekday and weekday coverage meets the required count —
with `required = required_shifts_for_week(Monday of the target week)`,
weekday coverage counted over Mon-Fri rows with the coverage statuses,
weekend regular shifts over Sat/Sun rows with the regular statuses, and
any row whose id equals `exclude_schedule_id` excluded from both counts.
The store is assumed to contain no row with id 0 (ids are positive serial
keys; `0` would be falsy in the Python truthiness test). -/
theorem validate5_rejects_iff (isHol : Day → Bool) (db : DB) (employeeId : Nat)
    (targetDate : Day) (excl : Option Nat)
    (hwf : ∀ r ∈ db.schedules, r.id ≠ 0) :
    (validate5ShiftsPerWeek isHol db employeeId targetDate excl).1 = false ↔
      ((5 ≤ pyWeekday targetDate ∧
        (getShiftsRequiredForWeek isHol (weekStartOf targetDate) ≤
            claimWeekdayCoverage db employeeId targetDate excl ∨
         getShiftsRequiredForWeek isHol (weekStartOf targetDate) ≤
            claimWeekdayCoverage db employeeId targetDate excl +
              claimWeekendRegular db employeeId targetDate excl)) ∨
       (pyWeekday targetDate < 5 ∧
        getShiftsRequiredForWeek isHol (weekStartOf targetDate) ≤
          claimWeekdayCoverage db employeeId targetDate excl)) := by
  have hwd : applyExcludeTruthy excl (db.schedules.filter (fun s =>
      decide (s.employee_id = employeeId ∧ weekStartOf targetDate ≤ s.date ∧
        s.date ≤ weekStartOf targetDate + 6 ∧ s.status ∈ weekdayCoverageStatuses ∧
        pgDow s.date ∈ ([1, 2, 3, 4, 5] : List Int)))) =
      db.schedules.filter (fun s => decide (s.employee_id = employeeId ∧
        weekStartOf targetDate ≤ s.date ∧ s.date ≤ weekStartOf targetDate + 6 ∧
        s.status ∈ weekdayCoverageStatuses ∧ pyWeekday s.date < 5 ∧
        some s.id ≠ excl)) := by
    rw [applyExcludeTruthy_eq_filter excl _ _ hwf]
    apply List.filter_congr
    intro r _
    have hpg := pgDow_weekday_iff r.date
    rw [← Bool.decide_and]
    apply decide_eq_decide.mpr
    tauto
  have hwe : applyExcludeTruthy excl (db.schedules.filter (fun s =>
      decide (s.employee_id = employeeId ∧ weekStartOf targetDate ≤ s.date ∧
        s.date ≤ weekStartOf targetDate + 6 ∧ s.status ∈ weekendRegularStatuses ∧
        pgDow s.date ∈ ([6, 0] : List Int)))) =
      db.schedules.filter (fun s => decide (s.employee_id = employeeId ∧
        weekStartOf targetDate ≤ s.date ∧ s.date ≤ weekStartOf targetDate + 6 ∧
        s.status ∈ weekendRegularStatuses ∧ 5 ≤ pyWeekday s.date ∧
        some s.id ≠ excl)) := by
    rw [applyExcludeTruthy_eq_filter excl _ _ hwf]
    apply List.filter_congr
    intro r _
    have hpg := pgDow_weekend_iff r.date
    rw [← Bool.decide_and]
    apply decide_eq_decide.mpr
    tauto
  simp only [validate5ShiftsPerWeek, claimWeekdayCoverage, claimWeekendRegular, hwd, hwe]
  split_ifs with h5 hA hB
  · exact iff_of_true rfl (by omega)
  · exact iff_of_true rfl (by omega)
  · exact iff_of_false (by simp) (by omega)
  · exact iff_of_true rfl (by omega)
  · exact iff_of_false (by simp) (by omega)

/-- Witness for C3 on the concrete store `c9db` (one scheduled Monday row,
no zero ids), target 2026-01-12 with no exclusion. -/
theorem validate5_rejects_iff_witness :
    (validate5ShiftsPerWeek (fun _ => false) c9db 1 20454 none).1 = false ↔
      ((5 ≤ pyWeekday 20454 ∧
        (getShiftsRequiredForWeek (fun _ => false) (weekStartOf 20454) ≤
            claimWeekdayCoverage c9db 1 20454 none ∨
         getShiftsRequiredForWeek (fun _ => false) (weekStartOf 20454) ≤
            claimWeekdayCoverage c9db 1 20454 none + claimWeekendRegular c9db 1 20454 none)) ∨
       (pyWeekday 20454 < 5 ∧
        getShiftsRequiredForWeek (fun _ => false) (weekStartOf 20454) ≤
          claimWeekdayCoverage c9db 1 20454 none)) :=
  validate5_rejects_iff (fun _ => false) c9db 1 20454 none (by decide)

/-! ## C4 — check-out overtime reconciliation -/

theorem round2_zero : round2 0 = 0 := by decide

/-- C4: at check-out with an approved overtime request carrying an
explicit from/to window and a linked schedule,
`overtime_hours = min(max(0, min(checkout, window_end) - max(shift_end,
window_start)) in hours, request_hours)` (rounded to two decimals on
persistence, as the code stores `round(x, 2)`); role break minutes are
subtracted from the gross time only when the gross time is at least the
break duration; and on the concrete scenario — check-in 09:00, check-out
19:30, shift 09:00-18:00, approved window 18:00-20:00 for 1.5 h, break
60 min — the persisted values are `worked_hours = 9.5` and
`overtime_hours = 1.5`. -/
theorem checkout_overtime_spec :
    (∀ (ctx : CheckOutCtx) (ot : OvertimeRequestRow) (sched : ScheduleRow) (se f t : Int),
      ctx.overtimeRequest = some ot → ctx.schedule = some sched →
      sched.end_time = some se → ot.from_time = some f → ot.to_time = some t →
      0 ≤ ot.request_hours →
      (checkOutCompute ctx).2.2 =
        round2 (min (max 0 (((min ctx.checkOutTime t - max se f : Int) : ℚ) / 60))
          ot.request_hours) ∧
      (∀ role : RoleRow, ctx.scheduleRole = some role →
        (checkOutCompute ctx).1 =
          round2 (((max 0 (ctx.checkOutTime - ctx.checkInTime -
            (if role.break_minutes ≤ ctx.checkOutTime - ctx.checkInTime then
              role.break_minutes else 0)) : Int) : ℚ) / 60))) ∧
    checkOutCompute c4Ctx = (Rat.divInt 19 2, 60, Rat.divInt 3 2) := by
  constructor
  · intro ctx ot sched se f t hOt hSched hSe hF hT hRh
    constructor
    · simp only [checkOutCompute, hOt, hSched, hSe, hF, hT]
      by_cases hlt : max se f < min ctx.checkOutTime t
      · rw [if_pos hlt, minutesToHours_eq]
        have hpos : (0 : ℚ) < ((min ctx.checkOutTime t - max se f : Int) : ℚ) / 60 := by
          apply div_pos _ (by norm_num)
          exact_mod_cast Int.sub_pos.mpr hlt
        rw [max_eq_right hpos.le]
      · rw [if_neg hlt]
        have hnonpos : ((min ctx.checkOutTime t - max se f : Int) : ℚ) / 60 ≤ 0 := by
          apply div_nonpos_of_nonpos_of_nonneg _ (by norm_num)
          have : min ctx.checkOutTime t - max se f ≤ 0 := by omega
          exact_mod_cast this
        rw [max_eq_left hnonpos, min_eq_left hRh, round2_zero]
    · intro role hRole
      simp only [checkOutCompute, hOt, hSched, hSe, hF, hT, hRole, minutesToHours_eq]
  · decide

/-- Witness for C4: the overtime formula applied to the scenario context,
where it evaluates to 1.5 hours. -/
theorem checkout_overtime_spec_witness :
    (checkOutCompute c4Ctx).2.2 =
      round2 (min (max 0 (((min c4Ctx.checkOutTime 1200 - max 1080 1080 : Int) : ℚ) / 60))
        c4Ot.request_hours) ∧
    (checkOutCompute c4Ctx).2.2 = Rat.divInt 3 2 :=
  ⟨(checkout_overtime_spec.1 c4Ctx c4Ot (mkRow 1 1 20454 (some 540) (some 1080) "scheduled")
      1080 1080 1200 rfl rfl rfl rfl rfl (by decide)).1,
   by decide⟩

/-! ## C1 — what approving a comp-off (earning) request actually creates -/

/-- Updating the unique `p`-element of a list (when `f` preserves `p`)
updates the filtered view accordingly. -/
theorem updateFirst_filter_singleton {α : Type} (p : α → Bool) (f : α → α) :
    ∀ (l : List α) (t : α), l.filter p = [t] → (∀ x, p x = true → p (f x) = true) →
      (updateFirst p f l).filter p = [f t] := by
  intro l
  induction l with
  | nil => intro t h _; simp at h
  | cons x xs ih =>
    intro t h hp
    by_cases hx : p x = true
    · rw [List.filter_cons_of_pos hx] at h
      obtain ⟨rfl, hrest⟩ := List.cons_eq_cons.mp h
      unfold updateFirst
      rw [if_pos hx, List.filter_cons_of_pos (hp x hx), hrest]
    · rw [List.filter_cons_of_neg (by simpa using hx)] at h
      unfold updateFirst
      rw [if_neg hx, List.filter_cons_of_neg (by simpa using hx)]
      exact ih t h hp

/-- C1 counterexample: on the concrete store `c1db` — a pending comp-off
request of employee 1 for 2026-01-12 and a typical 09:00-18:00 shift on
the same weekday one week earlier — the approval succeeds, yet the store
holds no `comp_off_earned` row at all: the created row has status
`comp_off_taken` with null start/end times, so the claim's described
Schedule row (status `comp_off_earned`, times from the typical shift) is
not created. -/
theorem approve_comp_off_no_earned_row :
    (approveCompOff c1db 1 20454).map (fun db' =>
      (db'.schedules.map (fun s => (s.status, s.start_time, s.end_time)),
       (db'.schedules.filter (fun s => decide (s.status = "comp_off_earned"))).length)) =
    .ok ([("scheduled", some 540, some 1080), ("comp_off_taken", none, none)], 0) := by
  decide

/-- C1 (amended): approving a CompOffRequest for date D creates a Schedule
row with status `comp_off_taken` and null start/end times (not
`comp_off_earned` with typical-shift times — the endpoint performs no
shift-time discovery); it increments `CompOffTracking.earned_days` by 1
and appends a CompOffDetail of type `'earned'` whose `earned_month` is
D's month. -/
theorem approve_comp_off_spec (db : DB) (cid : Nat) (today : Day) (db' : DB)
    (compOff : CompOffRequestRow) (employee : EmployeeRow)
    (hreq : db.compOffRequests.find? (fun c => decide (c.id = cid)) = some compOff)
    (hemp : db.employees.find? (fun e => decide (e.id = compOff.employee_id)) = some employee)
    (hok : approveCompOff db cid today = .ok db') :
    (∃ row : ScheduleRow, db'.schedules = db.schedules ++ [row] ∧
      row.status = "comp_off_taken" ∧ row.start_time = none ∧ row.end_time = none ∧
      row.employee_id = employee.id ∧ row.date = compOff.comp_off_date) ∧
    trackingEarnedDays db' employee.id = trackingEarnedDays db employee.id + 1 ∧
    (∃ detail : CompOffDetailRow, db'.compOffDetails = db.compOffDetails ++ [detail] ∧
      detail.type = "earned" ∧ detail.employee_id = employee.id ∧
      detail.date = compOff.comp_off_date ∧
      detail.earned_month = monthIndexOfDay compOff.comp_off_date) := by
  simp only [approveCompOff, hreq, hemp] at hok
  rcases hfil : db.compOffTracking.filter (fun t => decide (t.employee_id = employee.id)) with
    _ | ⟨t, rest⟩
  · rw [hfil] at hok
    injection hok with hok
    subst hok
    refine ⟨⟨_, rfl, rfl, rfl, rfl, rfl, rfl⟩, ?_, ⟨_, rfl, rfl, rfl, rfl, rfl⟩⟩
    unfold trackingEarnedDays
    rw [List.filter_append, hfil]
    simp
  · rcases rest with _ | ⟨t2, rest2⟩
    · rw [hfil] at hok
      injection hok with hok
      subst hok
      refine ⟨⟨_, rfl, rfl, rfl, rfl, rfl, rfl⟩, ?_, ⟨_, rfl, rfl, rfl, rfl, rfl⟩⟩
      have ht : t ∈ db.compOffTracking.filter (fun tr => decide (tr.employee_id = employee.id)) := by
        rw [hfil]
        exact List.mem_singleton_self t
      have hpt : t.employee_id = employee.id := by
        have := (List.mem_filter.mp ht).2
        simpa using this
      have step := updateFirst_filter_singleton
        (fun tr => decide (tr.employee_id = employee.id))
        (fun _ => ⟨t.id, t.employee_id, t.earned_days + 1, t.used_days,
          t.earned_days + 1 - t.used_days, some today⟩)
        db.compOffTracking t hfil (fun x _ => by simpa using hpt)
      unfold trackingEarnedDays
      rw [step, hfil]
      simp
    · rw [hfil] at hok
      cases hok

/-- Witness for C1 (amended) at the concrete approval on `c1db`. -/
theorem approve_comp_off_spec_witness :
    (∃ row : ScheduleRow, c1post.schedules = c1db.schedules ++ [row] ∧
      row.status = "comp_off_taken" ∧ row.start_time = none ∧ row.end_time = none ∧
      row.employee_id = emp1.id ∧ row.date = (compOffReq1 20454).comp_off_date) ∧
    trackingEarnedDays c1post emp1.id = trackingEarnedDays c1db emp1.id + 1 ∧
    (∃ detail : CompOffDetailRow, c1post.compOffDetails = c1db.compOffDetails ++ [detail] ∧
      detail.type = "earned" ∧ detail.employee_id = emp1.id ∧
      detail.date = (compOffReq1 20454).comp_off_date ∧
      detail.earned_month = monthIndexOfDay (compOffReq1 20454).comp_off_date) :=
  approve_comp_off_spec c1db 1 20454 c1post (compOffReq1 20454) emp1
    (by decide) (by decide) (by decide)

/-! ## C10 — comp-off leave approval deletes conflicting rows -/

theorem mem_dateRange_iff (s e d : Int) : d ∈ dateRange s e ↔ s ≤ d ∧ d ≤ e := by
  unfold dateRange
  rw [List.mem_map]
  constructor
  · rintro ⟨i, hi, rfl⟩
    rw [List.mem_range] at hi
    omega
  · rintro ⟨h1, h2⟩
    refine ⟨(d - s).toNat, ?_, by omega⟩
    rw [List.mem_range]
    omega

/-- Rows untouched by every date's deletion predicate survive the
comp-off usage loop. -/
theorem compOffUsageLoop_keeps (emp : EmployeeRow) (lr : LeaveRequestRow) :
    ∀ (ds : List Day) (db : DB) (s : ScheduleRow), s ∈ db.schedules →
      (∀ d ∈ ds, ¬ (s.employee_id = emp.id ∧ s.date = d ∧ s.status ≠ "comp_off_taken" ∧
        s.status ≠ "cancelled")) →
      s ∈ (compOffUsageLoop emp lr db ds).schedules := by
  intro ds
  induction ds with
  | nil => intro db s hs _; exact hs
  | cons d rest ih =>
    intro db s hs hsafe
    apply ih
    · apply List.mem_append_left
      apply List.mem_filter.mpr
      exact ⟨hs, decide_eq_true (hsafe d (List.mem_cons_self d rest))⟩
    · intro dd hdd
      exact hsafe dd (List.mem_cons_of_mem d hdd)

/-- `comp_off_taken` rows are never removed by the loop. -/
theorem compOffUsageLoop_keeps_taken (emp : EmployeeRow) (lr : LeaveRequestRow) :
    ∀ (ds : List Day) (db : DB) (s : ScheduleRow), s ∈ db.schedules →
      s.status = "comp_off_taken" → s ∈ (compOffUsageLoop emp lr db ds).schedules := by
  intro ds
  induction ds with
  | nil => intro db s hs _; exact hs
  | cons d rest ih =>
    intro db s hs hst
    apply ih _ _ _ hst
    apply List.mem_append_left
    apply List.mem_filter.mpr
    refine ⟨hs, ?_⟩
    simp [hst]

/-- The loop introduces only `comp_off_taken` rows: a row absent from the
store whose status is not `comp_off_taken` stays absent. -/
theorem compOffUsageLoop_no_new (emp : EmployeeRow) (lr : LeaveRequestRow) :
    ∀ (ds : List Day) (db : DB) (s : ScheduleRow), s ∉ db.schedules →
      s.status ≠ "comp_off_taken" → s ∉ (compOffUsageLoop emp lr db ds).schedules := by
  intro ds
  induction ds with
  | nil => intro db s hs _; exact hs
  | cons d rest ih =>
    intro db s hs hst
    apply ih
    · intro hmem
      rcases List.mem_append.mp hmem with hf | hrow
      · exact hs (List.mem_filter.mp hf).1
      · rw [List.mem_singleton] at hrow
        subst hrow
        exact hst rfl
    · exact hst

/-- Every row of the store hit by some date of the loop is gone from the
result. -/
theorem compOffUsageLoop_deletes (emp : EmployeeRow) (lr : LeaveRequestRow) :
    ∀ (ds : List Day) (db : DB) (s : ScheduleRow), s.employee_id = emp.id →
      s.date ∈ ds → s.status ≠ "comp_off_taken" → s.status ≠ "cancelled" →
      s ∉ (compOffUsageLoop emp lr db ds).schedules := by
  intro ds
  induction ds with
  | nil => intro db s _ hmem _ _; simp at hmem
  | cons d rest ih =>
    intro db s hemp hmem hst hsc
    rcases List.mem_cons.mp hmem with hdd | hrest
    · -- the head date removes every copy of `s`; it can never come back
      apply compOffUsageLoop_no_new emp lr rest _ s _ hst
      intro hmem2
      rcases List.mem_append.mp hmem2 with hf | hrow
      · have := (List.mem_filter.mp hf).2
        simp only [decide_eq_true_eq] at this
        exact this ⟨hemp, hdd, hst, hsc⟩
      · rw [List.mem_singleton] at hrow
        subst hrow
        exact hst rfl
    · exact ih _ s hemp hrest hst hsc

/-- Each date of the loop ends up with a freshly inserted `comp_off_taken`
row in the result. -/
theorem compOffUsageLoop_inserts (emp : EmployeeRow) (lr : LeaveRequestRow) :
    ∀ (ds : List Day) (db : DB) (d : Day), d ∈ ds →
      ∃ r ∈ (compOffUsageLoop emp lr db ds).schedules, r.employee_id = emp.id ∧
        r.date = d ∧ r.status = "comp_off_taken" ∧ r.start_time = none ∧
        r.end_time = none := by
  intro ds
  induction ds with
  | nil => intro db d hd; simp at hd
  | cons dd rest ih =>
    intro db d hd
    rcases List.mem_cons.mp hd with rfl | hrest
    · refine ⟨compOffTakenRow emp lr d db.nextScheduleId, ?_, rfl, rfl, rfl, rfl, rfl⟩
      apply compOffUsageLoop_keeps_taken emp lr rest _ _ _ rfl
      exact List.mem_append_right _ (List.mem_singleton_self _)
    · exact ih _ d hrest

/-- The three schedule-level effects of running the usage loop over the
full date range of a leave request. -/
theorem compOffUsageLoop_facts (emp : EmployeeRow) (lr : LeaveRequestRow) (db : DB) :
    (∀ s : ScheduleRow, s.employee_id = emp.id → lr.start_date ≤ s.date →
      s.date ≤ lr.end_date → s.status ≠ "comp_off_taken" → s.status ≠ "cancelled" →
      s ∉ (compOffUsageLoop emp lr db (dateRange lr.start_date lr.end_date)).schedules) ∧
    (∀ d : Day, lr.start_date ≤ d → d ≤ lr.end_date →
      ∃ r ∈ (compOffUsageLoop emp lr db (dateRange lr.start_date lr.end_date)).schedules,
        r.employee_id = emp.id ∧ r.date = d ∧ r.status = "comp_off_taken" ∧
        r.start_time = none ∧ r.end_time = none) ∧
    (∀ s ∈ db.schedules,
      (∀ d : Day, lr.start_date ≤ d → d ≤ lr.end_date →
        ¬ (s.employee_id = emp.id ∧ s.date = d ∧ s.status ≠ "comp_off_taken" ∧
           s.status ≠ "cancelled")) →
      s ∈ (compOffUsageLoop emp lr db (dateRange lr.start_date lr.end_date)).schedules) := by
  refine ⟨?_, ?_, ?_⟩
  · intro s hemp h1 h2 hst hsc
    exact compOffUsageLoop_deletes emp lr _ db s hemp
      ((mem_dateRange_iff _ _ _).mpr ⟨h1, h2⟩) hst hsc
  · intro d h1 h2
    exact compOffUsageLoop_inserts emp lr _ db d ((mem_dateRange_iff _ _ _).mpr ⟨h1, h2⟩)
  · intro s hs hsafe
    exact compOffUsageLoop_keeps emp lr _ db s hs (fun d hd =>
      hsafe d ((mem_dateRange_iff _ _ _).mp hd).1 ((mem_dateRange_iff _ _ _).mp hd).2)

/-- **C10.**  Approving a `comp_off` leave request deletes, for each date in
the request's range, every schedule row of that employee whose status is
neither `comp_off_taken` nor `cancelled` (whatever it was — `scheduled`,
`completed`, `leave`, ...), inserts a `comp_off_taken` row with NULL
start/end times for each date of the range, and keeps every stored row
that no date of the range matches (main.py:3946-3979). -/
theorem approve_leave_comp_off_deletes
    (db : DB) (leaveId : Nat) (today : Day) (db' : DB) (lr : LeaveRequestRow)
    (emp : EmployeeRow)
    (hreq : db.leaveRequests.find? (fun l => decide (l.id = leaveId)) = some lr)
    (htype : lr.leave_type = "comp_off")
    (hemp : db.employees.find? (fun e => decide (e.id = lr.employee_id)) = some emp)
    (hok : approveLeave db leaveId today = .ok db') :
    (∀ s : ScheduleRow, s.employee_id = emp.id → lr.start_date ≤ s.date →
      s.date ≤ lr.end_date → s.status ≠ "comp_off_taken" → s.status ≠ "cancelled" →
      s ∉ db'.schedules) ∧
    (∀ d : Day, lr.start_date ≤ d → d ≤ lr.end_date →
      ∃ r ∈ db'.schedules, r.employee_id = emp.id ∧ r.date = d ∧
        r.status = "comp_off_taken" ∧ r.start_time = none ∧ r.end_time = none) ∧
    (∀ s ∈ db.schedules,
      (∀ d : Day, lr.start_date ≤ d → d ≤ lr.end_date →
        ¬ (s.employee_id = emp.id ∧ s.date = d ∧ s.status ≠ "comp_off_taken" ∧
           s.status ≠ "cancelled")) →
      s ∈ db'.schedules) := by
  simp only [approveLeave, hreq, hemp, htype] at hok
  split at hok
  · rename_i hpu
    exact absurd hpu (by decide)
  · split at hok
    · split at hok
      · exact Except.noConfusion hok
      · split at hok
        · injection hok with h
          subst h
          exact compOffUsageLoop_facts emp lr _
        · injection hok with h
          subst h
          exact compOffUsageLoop_facts emp lr _
        · exact Except.noConfusion hok
    · rename_i hco
      exact absurd trivial hco

theorem approve_leave_comp_off_deletes_witness :
    (mkRow 1 1 20454 (some 540) (some 1080) "scheduled" ∉ c10post.schedules) ∧
    (∃ r ∈ c10post.schedules, r.employee_id = emp1.id ∧ r.date = 20454 ∧
      r.status = "comp_off_taken" ∧ r.start_time = none ∧ r.end_time = none) := by
  have h := approve_leave_comp_off_deletes c10db 1 20454 c10post c10lr emp1
    (by decide) (by decide) (by decide) (by decide)
  exact ⟨h.1 _ (by decide) (by decide) (by decide) (by decide) (by decide),
         h.2.1 20454 (by decide) (by decide)⟩

/-! ## C7 — the consecutive-shifts check is a within-week bound -/

theorem weekStartOf_bounds (d : Int) : weekStartOf d ≤ d ∧ d ≤ weekStartOf d + 6 := by
  unfold weekStartOf pyWeekday
  omega

/-- `sortedDedup` depends only on the set of elements. -/
theorem sortedDedup_congr (A B : List Int) (h : ∀ x, x ∈ A ↔ x ∈ B) :
    sortedDedup A = sortedDedup B := by
  unfold sortedDedup sortInts
  have hperm : List.Perm (List.insertionSort (fun a b => a ≤ b) A).dedup
      (List.insertionSort (fun a b => a ≤ b) B).dedup := by
    apply (List.perm_ext_iff_of_nodup (List.nodup_dedup _) (List.nodup_dedup _)).mpr
    intro a
    simp only [List.mem_dedup]
    rw [(List.perm_insertionSort _ A).mem_iff, (List.perm_insertionSort _ B).mem_iff]
    exact h a
  have hsA : List.Sorted (fun a b : Int => a ≤ b)
      (List.insertionSort (fun a b => a ≤ b) A).dedup :=
    List.Pairwise.sublist (List.dedup_sublist _) (List.sorted_insertionSort _ A)
  have hsB : List.Sorted (fun a b : Int => a ≤ b)
      (List.insertionSort (fun a b => a ≤ b) B).dedup :=
    List.Pairwise.sublist (List.dedup_sublist _) (List.sorted_insertionSort _ B)
  exact List.eq_of_perm_of_sorted hperm hsA hsB

/-- After a date-move of row `sid` to `nd`, the employee's schedule dates
inside the Mon-Sun week of `nd` are exactly the validator's date list: the
pre-state rows it saw (row `sid` excluded) plus `nd` itself. -/
theorem update_weekDates_mem_iff (db : DB) (sid : Nat) (upd : ScheduleUpdateData)
    (sched : ScheduleRow) (nd : Int) (x : Int)
    (hsched : sched ∈ db.schedules)
    (hsid : sched.id = sid)
    (hnz : sid ≠ 0)
    (huniq : ∀ r ∈ db.schedules, r.id = sid → r = sched)
    (hdate : upd.date = some nd)
    (hnost : upd.status = none)
    (hst : sched.status ∈ consecutiveStatuses) :
    (x ∈ ((applyScheduleUpdate db sid upd).schedules.filter (fun s =>
        decide (s.employee_id = sched.employee_id ∧ weekStartOf nd ≤ s.date ∧
          s.date ≤ weekStartOf nd + 6 ∧ s.status ∈ consecutiveStatuses))).map
        (fun s => s.date)
     ↔ x ∈ ((applyExcludeTruthy (some sid) (db.schedules.filter (fun s =>
        decide (s.employee_id = sched.employee_id ∧ weekStartOf nd ≤ s.date ∧
          s.date ≤ weekStartOf nd + 6 ∧ s.status ∈ consecutiveStatuses)))).map
        (fun s => s.date) ++ [nd])) := by
  have hweek := weekStartOf_bounds nd
  simp only [applyScheduleUpdate, applyExcludeTruthy, if_pos hnz, hdate, hnost,
    Option.getD_some, Option.getD_none, List.mem_map, List.mem_filter, List.mem_append,
    List.mem_singleton, decide_eq_true_eq]
  constructor
  · rintro ⟨a, ⟨⟨r, hr, rfl⟩, hq⟩, hxr⟩
    by_cases hid : r.id = sid
    · have hrs : r = sched := huniq r hr hid
      subst hrs
      right
      rw [if_pos hid] at hxr
      exact hxr.symm
    · rw [if_neg hid] at hq hxr
      left
      exact ⟨r, ⟨⟨hr, hq⟩, hid⟩, hxr⟩
  · rintro (⟨r, ⟨⟨hr, hq⟩, hid⟩, hxr⟩ | rfl)
    · exact ⟨r, ⟨⟨r, hr, if_neg hid⟩, hq⟩, hxr⟩
    · refine ⟨_, ⟨⟨sched, hsched, rfl⟩, ?_⟩, ?_⟩
      · rw [if_pos hsid]
        exact ⟨rfl, hweek.1, hweek.2, hst⟩
      · rw [if_pos hsid]

/-- **C7 (amended).**  An accepted `update_schedule` date move bounds the
employee's consecutive-day run **within the Mon-Sun week of the new
date** by 5 (the validator of main.py:187-231 restricts its query to
`week_start..week_end`); the counterexample shows the bound does not
extend across a Monday boundary, contrary to the claim's
"including runs that span a Monday week boundary". -/
theorem update_schedule_consecutive_week_bound
    (isHol : Day → Bool) (db db' : DB) (sid : Nat) (upd : ScheduleUpdateData)
    (sched : ScheduleRow) (nd : Int)
    (hfind : db.schedules.find? (fun s => decide (s.id = sid)) = some sched)
    (hnz : sid ≠ 0)
    (huniq : ∀ r ∈ db.schedules, r.id = sid → r = sched)
    (hdate : upd.date = some nd)
    (hnd : nd ≠ sched.date)
    (hnost : upd.status = none)
    (hst : sched.status ∈ consecutiveStatuses)
    (hok : updateSchedule isHol db sid upd = .ok db') :
    weekRunLen db' sched.employee_id nd consecutiveStatuses ≤ 5 := by
  have hsched : sched ∈ db.schedules := List.mem_of_find?_eq_some hfind
  have hsid : sched.id = sid := by
    have h := List.find?_some hfind
    simpa using h
  simp only [updateSchedule, hfind, hdate] at hok
  rw [if_pos (decide_eq_true hnd)] at hok
  split at hok
  · split at hok
    · rename_i hv1 hv2
      injection hok with h
      subst h
      simp only [validateConsecutiveShiftsLimit] at hv2
      split at hv2
      · simp at hv2
      · rename_i h5
        unfold weekRunLen
        rw [sortedDedup_congr _ _ (fun x => update_weekDates_mem_iff db sid upd sched nd x
          hsched hsid hnz huniq hdate hnost hst)]
        rw [Nat.not_lt] at h5
        exact h5
    · exact Except.noConfusion hok
  · exact Except.noConfusion hok

/-- **C7 counterexample.**  Moving row 6 to the Monday (day 11) right after
a Wednesday-Sunday `scheduled` run passes both validators, yet leaves the
employee with a 6-day consecutive run spanning the Monday week boundary:
the within-week bound of the validator does not extend across weeks. -/
theorem update_schedule_cross_week_run :
    updateSchedule (fun _ => false) c7db 6 c7upd = .ok c7post ∧
    weekRunLen c7post 1 11 consecutiveStatuses ≤ 5 ∧
    5 < allRunLen c7post 1 consecutiveStatuses := by
  decide

theorem update_schedule_consecutive_week_bound_witness :
    weekRunLen c7post 1 11 consecutiveStatuses ≤ 5 :=
  update_schedule_consecutive_week_bound (fun _ => false) c7db c7post 6 c7upd
    (mkRow 6 1 25 (some 540) (some 1080) "scheduled") 11
    (by decide) (by decide) (by decide) rfl (by decide) rfl (by decide) (by decide)

/-! ## C2 — the no-double-booking invariant -/

/-- Invariant preservation for `List.foldl`. -/
theorem foldl_inv {α β : Type} (P : β → Prop) (f : β → α → β)
    (h : ∀ b a, P b → P (f b a)) : ∀ (l : List α) (b : β), P b → P (l.foldl f b) := by
  intro l
  induction l with
  | nil => intro b hb; exact hb
  | cons x xs ih => intro b hb; exact ih _ (h b x hb)

/-- Appending a row that no stored non-cancelled row double-books keeps
the pairwise no-double-booking property. -/
theorem pairwise_append_noDouble (l : List ScheduleRow) (r : ScheduleRow)
    (hinv : l.Pairwise noDouble)
    (hguard : ∀ s ∈ l, s.status ≠ "cancelled" → s.employee_id = r.employee_id →
      s.date = r.date → False) :
    (l ++ [r]).Pairwise noDouble := by
  rw [List.pairwise_append]
  refine ⟨hinv, List.pairwise_singleton _ _, ?_⟩
  intro a ha b hb
  rw [List.mem_singleton] at hb
  subst hb
  intro hanc _ hemp hdate
  exact hguard a ha hanc hemp hdate

/-- The generator's shift-assignment step preserves the invariant: its
insert sits behind the `existing_schedule` double-booking guard
(main.py:5740-5750). -/
theorem genTryAssign_inv (isHol : Day → Bool) (departmentId : Nat) (roles : List RoleRow)
    (shift : ShiftRow) (d : Day) (st : GenLoopState) (emp : EmployeeRow)
    (hinv : scheduleInvariant st.db) :
    scheduleInvariant (genTryAssign isHol departmentId roles shift d st emp).1.db := by
  simp only [genTryAssign]
  split
  · exact hinv
  · rename_i hany
    rw [Bool.not_eq_true, List.any_eq_false] at hany
    split_ifs <;>
      first
        | exact hinv
        | (apply pairwise_append_noDouble _ _ hinv
           intro s hs _ hemp hdate
           exact absurd (decide_eq_true ⟨hemp, hdate⟩) (hany s hs))

/-- The generator's per-employee step preserves the invariant: the
leave/comp-off materialization is also guarded by the existing-row check
(main.py:5618-5624). -/
theorem processEmployee_inv (isHol : Day → Bool) (departmentId : Nat) (roles : List RoleRow)
    (shift : ShiftRow) (d : Day) (st : GenLoopState) (emp : EmployeeRow)
    (hinv : scheduleInvariant st.db) :
    scheduleInvariant (processEmployee isHol departmentId roles shift d st emp).1.db := by
  simp only [processEmployee]
  split
  · split
    · exact hinv
    · rename_i hany
      rw [Bool.not_eq_true, List.any_eq_false] at hany
      apply pairwise_append_noDouble _ _ hinv
      intro s hs _ hemp hdate
      exact absurd (decide_eq_true ⟨hemp, hdate⟩) (hany s hs)
  · exact genTryAssign_inv isHol departmentId roles shift d st emp hinv

/-- The employee loop preserves the invariant. -/
theorem employeesForShiftLoop_inv (isHol : Day → Bool) (departmentId : Nat)
    (roles : List RoleRow) (shift : ShiftRow) (d : Day) :
    ∀ (emps : List EmployeeRow) (st : GenLoopState) (ac : Int),
      scheduleInvariant st.db →
      scheduleInvariant (employeesForShiftLoop isHol departmentId roles shift d st ac emps).1.db := by
  intro emps
  induction emps with
  | nil => intro st ac h; exact h
  | cons e rest ih =>
    intro st ac h
    have hpe := processEmployee_inv isHol departmentId roles shift d st e h
    simp only [employeesForShiftLoop]
    rcases hres : processEmployee isHol departmentId roles shift d st e with ⟨st', b⟩
    rw [hres] at hpe
    cases b
    · show scheduleInvariant (employeesForShiftLoop isHol departmentId roles shift d st' ac rest).1.db
      exact ih st' ac hpe
    · show scheduleInvariant ((if shift.max_emp ≤ ac + 1 then (st', ac + 1)
        else employeesForShiftLoop isHol departmentId roles shift d st' (ac + 1) rest)).1.db
      split
      · exact hpe
      · exact ih st' (ac + 1) hpe

/-- One shift occurrence preserves the invariant. -/
theorem processShift_inv (isHol : Day → Bool) (departmentId : Nat) (roles : List RoleRow)
    (employees : List EmployeeRow) (d : Day) (st : GenLoopState) (shift : ShiftRow)
    (hinv : scheduleInvariant st.db) :
    scheduleInvariant (processShift isHol departmentId roles employees d st shift).db := by
  simp only [processShift]
  split
  · exact hinv
  · split
    · exact hinv
    · split
      · exact employeesForShiftLoop_inv isHol departmentId roles shift d _ st 0 hinv
      · exact employeesForShiftLoop_inv isHol departmentId roles shift d _ st 0 hinv

/-- One date of the main loop preserves the invariant. -/
theorem processDate_inv (isHol : Day → Bool) (departmentId : Nat) (roles : List RoleRow)
    (shifts : List ShiftRow) (employees : List EmployeeRow) (st : GenLoopState) (d : Day)
    (hinv : scheduleInvariant st.db) :
    scheduleInvariant (processDate isHol departmentId roles shifts employees st d).db := by
  simp only [processDate]
  split
  · exact hinv
  · exact foldl_inv (fun s => scheduleInvariant s.db) _
      (fun b a hb => processShift_inv isHol departmentId roles employees d b a hb) shifts st hinv

/-- The regenerate deletion phase preserves the invariant (it only filters
the schedule table). -/
theorem regenerateDelete_inv (db : DB) (departmentId : Nat) (startDate endDate : Day)
    (hinv : scheduleInvariant db) :
    scheduleInvariant (regenerateDelete db departmentId startDate endDate) := by
  simp only [regenerateDelete]
  split <;> exact List.Pairwise.sublist (List.filter_sublist _) hinv

/-- The whole generator preserves the invariant. -/
theorem generateSchedules_inv (isHol : Day → Bool) (db : DB) (departmentId : Nat)
    (startDate endDate : Day) (regenerate : Bool) (hinv : scheduleInvariant db) :
    scheduleInvariant (generateSchedules isHol db departmentId startDate endDate regenerate).2 := by
  simp only [generateSchedules]
  split
  · exact hinv
  · split
    · have hdb1 : scheduleInvariant (regenerateDelete db departmentId startDate endDate) :=
        regenerateDelete_inv db departmentId startDate endDate hinv
      split
      · exact hdb1
      · split
        · exact hdb1
        · split
          · exact hdb1
          · refine foldl_inv (fun s => scheduleInvariant s.db) _
              (fun b a hb => processDate_inv isHol departmentId _ _ _ b a hb) _ _ ?_
            exact hdb1
    · split
      · exact hinv
      · split
        · exact hinv
        · split
          · exact hinv
          · refine foldl_inv (fun s => scheduleInvariant s.db) _
              (fun b a hb => processDate_inv isHol departmentId _ _ _ b a hb) _ _ ?_
            exact hinv

theorem leaveRowForDay_employee (emp : EmployeeRow) (lr : LeaveRequestRow) (d : Day)
    (n : Nat) : (leaveRowForDay emp lr d n).employee_id = emp.id := by
  unfold leaveRowForDay
  split
  · split <;> rfl
  · rfl

theorem leaveRowForDay_date (emp : EmployeeRow) (lr : LeaveRequestRow) (d : Day)
    (n : Nat) : (leaveRowForDay emp lr d n).date = d := by
  unfold leaveRowForDay
  split
  · split <;> rfl
  · rfl

/-- The per-day loop of the paid/unpaid leave branch preserves the
invariant: row creation is guarded by the non-cancelled existence check
(main.py:3877-3887). -/
theorem paidLeaveLoop_inv (emp : EmployeeRow) (lr : LeaveRequestRow) :
    ∀ (ds : List Day) (db db' : DB), paidLeaveLoop emp lr db ds = .ok db' →
      scheduleInvariant db → scheduleInvariant db' := by
  intro ds
  induction ds with
  | nil =>
    intro db db' hok hinv
    injection hok with h
    subst h
    exact hinv
  | cons d rest ih =>
    intro db db' hok hinv
    simp only [paidLeaveLoop] at hok
    split at hok
    · rename_i hfil
      refine ih _ db' hok ?_
      apply pairwise_append_noDouble _ _ hinv
      intro s hs hsnc hemp hdate
      have hsp : s ∉ db.schedules.filter (fun s => decide (s.employee_id = emp.id ∧ s.date = d ∧
          s.status ≠ "cancelled")) := by
        rw [hfil]
        exact List.not_mem_nil s
      apply hsp
      rw [List.mem_filter]
      refine ⟨hs, decide_eq_true ⟨?_, ?_, hsnc⟩⟩
      · rw [hemp]
        exact leaveRowForDay_employee emp lr d db.nextScheduleId
      · rw [hdate]
        exact leaveRowForDay_date emp lr d db.nextScheduleId
    · exact ih _ db' hok hinv
    · exact Except.noConfusion hok

/-- **C2 (amended).**  The no-double-booking invariant — at most one
non-cancelled Schedule row per (employee, date) — is preserved by the
schedule generator, by paid/unpaid leave approval, and vacuously by
`create_schedule` (which never commits, C6); the counterexample shows
`approve_comp_off` breaks it, inserting its `comp_off_taken` row with no
existing-row check (main.py:4425-4441). -/
theorem schedule_invariant_preservation :
    (∀ (isHol : Day → Bool) (db : DB) (departmentId : Nat) (startDate endDate : Day)
       (regenerate : Bool), scheduleInvariant db →
       scheduleInvariant (generateSchedules isHol db departmentId startDate endDate regenerate).2) ∧
    (∀ (db db' : DB) (lid : Nat) (today : Day) (lr : LeaveRequestRow),
       db.leaveRequests.find? (fun l => decide (l.id = lid)) = some lr →
       lr.leave_type = "paid" ∨ lr.leave_type = "unpaid" →
       approveLeave db lid today = .ok db' → scheduleInvariant db → scheduleInvariant db') ∧
    (∀ (isHol : Day → Bool) (db : DB) (data : ScheduleCreateData),
       (createSchedule isHol db data).2 = db) := by
  refine ⟨generateSchedules_inv, ?_, ?_⟩
  · intro db db' lid today lr hreq htype hok hinv
    simp only [approveLeave, hreq] at hok
    split at hok
    · injection hok with h
      subst h
      exact hinv
    · rw [if_pos htype] at hok
      exact paidLeaveLoop_inv _ lr _ _ db' hok hinv
  · intro isHol db data
    simp only [createSchedule]
    split
    · rfl
    · split
      · split <;> rfl
      · rfl

/-- **C2 counterexample.**  `approve_comp_off` inserts its
`comp_off_taken` row with no double-booking check: on a store already
holding a `scheduled` row for (employee 1, 2026-01-12), approval leaves
two non-cancelled rows for that pair. -/
theorem approve_comp_off_double_booking :
    scheduleInvariant c2db ∧
    approveCompOff c2db 1 20454 = .ok c2post ∧
    ¬ scheduleInvariant c2post ∧
    (c2post.schedules.filter (fun s => decide (s.employee_id = 1 ∧ s.date = 20454 ∧
      s.status ≠ "cancelled"))).length = 2 := by
  decide

/-! ## C5 — the regenerate deletion frame -/

theorem map_id_of {α : Type} (l : List α) (f : α → α) (h : ∀ x ∈ l, f x = x) :
    l.map f = l := by
  induction l with
  | nil => rfl
  | cons x xs ih =>
    simp only [List.map]
    rw [h x (List.mem_cons_self x xs), ih (fun y hy => h y (List.mem_cons_of_mem x hy))]

theorem GenFrame_refl (db : DB) : GenFrame db db :=
  ⟨⟨[], (List.append_nil _).symm, fun r hr => absurd hr (List.not_mem_nil r)⟩, le_refl _,
   rfl, rfl, rfl, rfl, rfl, rfl, rfl, rfl, rfl, rfl⟩

theorem GenFrame_trans {a b c : DB} (h1 : GenFrame a b) (h2 : GenFrame b c) : GenFrame a c := by
  obtain ⟨⟨e1, hs1, hid1⟩, hn1, ha1, hc1, hcr1, hct1, hcd1, hl1, ho1, he1, hr1, hsh1⟩ := h1
  obtain ⟨⟨e2, hs2, hid2⟩, hn2, ha2, hc2, hcr2, hct2, hcd2, hl2, ho2, he2, hr2, hsh2⟩ := h2
  refine ⟨⟨e1 ++ e2, ?_, ?_⟩, le_trans hn1 hn2, ha2.trans ha1, hc2.trans hc1,
    hcr2.trans hcr1, hct2.trans hct1, hcd2.trans hcd1, hl2.trans hl1, ho2.trans ho1,
    he2.trans he1, hr2.trans hr1, hsh2.trans hsh1⟩
  · rw [hs2, hs1, List.append_assoc]
  · intro r hr
    rcases List.mem_append.mp hr with h | h
    · exact hid1 r h
    · exact le_trans hn1 (hid2 r h)

theorem GenFrame_append (db : DB) (r : ScheduleRow) (hid : db.nextScheduleId ≤ r.id) :
    GenFrame db { db with schedules := db.schedules ++ [r],
                          nextScheduleId := db.nextScheduleId + 1 } :=
  ⟨⟨[r], rfl, fun x hx => by rw [List.mem_singleton] at hx; subst hx; exact hid⟩,
   Nat.le_succ _, rfl, rfl, rfl, rfl, rfl, rfl, rfl, rfl, rfl, rfl⟩

/-- The shift-assignment step only appends a fresh-id `scheduled` row. -/
theorem genTryAssign_frame (isHol : Day → Bool) (departmentId : Nat) (roles : List RoleRow)
    (shift : ShiftRow) (d : Day) (st : GenLoopState) (emp : EmployeeRow) :
    GenFrame st.db (genTryAssign isHol departmentId roles shift d st emp).1.db := by
  simp only [genTryAssign]
  split
  · exact GenFrame_refl st.db
  · split_ifs <;>
      first
        | exact GenFrame_refl st.db
        | exact GenFrame_append st.db _ (le_refl _)

/-- The per-employee step only appends a fresh-id row. -/
theorem processEmployee_frame (isHol : Day → Bool) (departmentId : Nat) (roles : List RoleRow)
    (shift : ShiftRow) (d : Day) (st : GenLoopState) (emp : EmployeeRow) :
    GenFrame st.db (processEmployee isHol departmentId roles shift d st emp).1.db := by
  simp only [processEmployee]
  split
  · split
    · exact GenFrame_refl st.db
    · exact GenFrame_append st.db _ (le_refl _)
  · exact genTryAssign_frame isHol departmentId roles shift d st emp

theorem employeesForShiftLoop_frame (isHol : Day → Bool) (departmentId : Nat)
    (roles : List RoleRow) (shift : ShiftRow) (d : Day) :
    ∀ (emps : List EmployeeRow) (st : GenLoopState) (ac : Int),
      GenFrame st.db (employeesForShiftLoop isHol departmentId roles shift d st ac emps).1.db := by
  intro emps
  induction emps with
  | nil => intro st ac; exact GenFrame_refl st.db
  | cons e rest ih =>
    intro st ac
    have hpe := processEmployee_frame isHol departmentId roles shift d st e
    simp only [employeesForShiftLoop]
    rcases hres : processEmployee isHol departmentId roles shift d st e with ⟨st', b⟩
    rw [hres] at hpe
    cases b
    · show GenFrame st.db (employeesForShiftLoop isHol departmentId roles shift d st' ac rest).1.db
      exact GenFrame_trans hpe (ih st' ac)
    · show GenFrame st.db ((if shift.max_emp ≤ ac + 1 then (st', ac + 1)
        else employeesForShiftLoop isHol departmentId roles shift d st' (ac + 1) rest)).1.db
      split
      · exact hpe
      · exact GenFrame_trans hpe (ih st' (ac + 1))

theorem processShift_frame (isHol : Day → Bool) (departmentId : Nat) (roles : List RoleRow)
    (employees : List EmployeeRow) (d : Day) (st : GenLoopState) (shift : ShiftRow) :
    GenFrame st.db (processShift isHol departmentId roles employees d st shift).db := by
  simp only [processShift]
  split
  · exact GenFrame_refl st.db
  · split
    · exact GenFrame_refl st.db
    · split
      · exact employeesForShiftLoop_frame isHol departmentId roles shift d _ st 0
      · exact employeesForShiftLoop_frame isHol departmentId roles shift d _ st 0

theorem foldl_rel {α β : Type} (R : β → β → Prop) (f : β → α → β)
    (hrefl : ∀ b, R b b) (htrans : ∀ a b c, R a b → R b c → R a c)
    (hstep : ∀ b a, R b (f b a)) : ∀ (l : List α) (b : β), R b (l.foldl f b) := by
  intro l
  induction l with
  | nil => intro b; exact hrefl b
  | cons x xs ih => intro b; exact htrans _ _ _ (hstep b x) (ih (f b x))

theorem processDate_frame (isHol : Day → Bool) (departmentId : Nat) (roles : List RoleRow)
    (shifts : List ShiftRow) (employees : List EmployeeRow) (st : GenLoopState) (d : Day) :
    GenFrame st.db (processDate isHol departmentId roles shifts employees st d).db := by
  simp only [processDate]
  split
  · exact GenFrame_refl st.db
  · exact foldl_rel (fun x y : GenLoopState => GenFrame x.db y.db) _
      (fun b => GenFrame_refl b.db) (fun _ _ _ h1 h2 => GenFrame_trans h1 h2)
      (fun b a => processShift_frame isHol departmentId roles employees d b a) shifts st

theorem dateLoop_frame (isHol : Day → Bool) (departmentId : Nat) (roles : List RoleRow)
    (shifts : List ShiftRow) (emps : List EmployeeRow) (ds : List Day) (st : GenLoopState) :
    GenFrame st.db ((ds.foldl (processDate isHol departmentId roles shifts emps) st).db) :=
  foldl_rel (fun x y : GenLoopState => GenFrame x.db y.db) _
    (fun b => GenFrame_refl b.db) (fun _ _ _ h1 h2 => GenFrame_trans h1 h2)
    (fun b a => processDate_frame isHol departmentId roles shifts emps b a) ds st

/-- Packaging of the date-loop frame for the generator's final store (only
the `shifts` table is rewritten afterwards). -/
theorem genLeaf_pack (db1 : DB) (stF : GenLoopState) (ns : List ShiftRow)
    (hf : GenFrame db1 stF.db) :
    (∃ ext, ({ stF.db with shifts := ns }).schedules = db1.schedules ++ ext ∧
      ∀ r ∈ ext, db1.nextScheduleId ≤ r.id) ∧
    ({ stF.db with shifts := ns }).attendance = db1.attendance ∧
    ({ stF.db with shifts := ns }).checkins = db1.checkins ∧
    ({ stF.db with shifts := ns }).compOffRequests = db1.compOffRequests := by
  obtain ⟨⟨ext, hs, hid⟩, hn, ha, hc, hcr, hrest⟩ := hf
  exact ⟨⟨ext, hs, hid⟩, ha, hc, hcr⟩

/-- Field equations of the deletion phase. -/
theorem regenerateDelete_facts (db : DB) (dep : Nat) (s e : Day) :
    (regenerateDelete db dep s e).schedules =
      db.schedules.filter (fun r => !(deleteCriteria dep s e r)) ∧
    (regenerateDelete db dep s e).nextScheduleId = db.nextScheduleId ∧
    (regenerateDelete db dep s e).attendance = db.attendance.filter (fun a =>
      !(refersDeletedRow (regenDeleteIds db dep s e) a.schedule_id)) ∧
    (regenerateDelete db dep s e).checkins = db.checkins.map (fun c =>
      if refersDeletedRow (regenDeleteIds db dep s e) c.schedule_id then
        { c with schedule_id := none } else c) ∧
    (regenerateDelete db dep s e).compOffRequests = db.compOffRequests.map (fun c =>
      if refersDeletedRow (regenDeleteIds db dep s e) c.schedule_id then
        { c with schedule_id := none } else c) := by
  simp only [regenerateDelete]
  split
  · exact ⟨rfl, rfl, rfl, rfl, rfl⟩
  · rename_i hdel
    rw [not_ne_iff] at hdel
    refine ⟨rfl, rfl, ?_, ?_, ?_⟩
    · rw [hdel]
      exact (List.filter_eq_self.mpr (fun a _ => by
        cases ha2 : a.schedule_id <;> simp [refersDeletedRow, ha2])).symm
    · rw [hdel]
      exact (map_id_of _ _ (fun c _ => by
        cases hc2 : c.schedule_id <;> simp [refersDeletedRow, hc2])).symm
    · rw [hdel]
      exact (map_id_of _ _ (fun c _ => by
        cases hc2 : c.schedule_id <;> simp [refersDeletedRow, hc2])).symm

/-- The regenerate run factors through a deletion store `db1` whose
schedule list only grows afterwards, with fresh ids, and whose
attendance/check-in/comp-off-request tables pass through unchanged. -/
theorem generateSchedules_regen_frame (isHol : Day → Bool) (db : DB) (dep : Nat)
    (s e : Day) :
    ∃ db1, (db1 = regenerateDelete db dep s e ∨
        (db1 = db ∧ db.schedules.filter (fun r => decide (r.department_id = dep ∧
          s ≤ r.date ∧ r.date ≤ e)) = [])) ∧
      (∃ ext, (generateSchedules isHol db dep s e true).2.schedules = db1.schedules ++ ext ∧
        ∀ r ∈ ext, db1.nextScheduleId ≤ r.id) ∧
      (generateSchedules isHol db dep s e true).2.attendance = db1.attendance ∧
      (generateSchedules isHol db dep s e true).2.checkins = db1.checkins ∧
      (generateSchedules isHol db dep s e true).2.compOffRequests = db1.compOffRequests := by
  simp only [generateSchedules]
  rw [if_neg (fun h => Bool.noConfusion h.2)]
  split
  · refine ⟨regenerateDelete db dep s e, Or.inl rfl, ?_⟩
    split
    · exact ⟨⟨[], (List.append_nil _).symm, fun r hr => absurd hr (List.not_mem_nil r)⟩,
        rfl, rfl, rfl⟩
    · split
      · exact ⟨⟨[], (List.append_nil _).symm, fun r hr => absurd hr (List.not_mem_nil r)⟩,
          rfl, rfl, rfl⟩
      · split
        · exact ⟨⟨[], (List.append_nil _).symm, fun r hr => absurd hr (List.not_mem_nil r)⟩,
            rfl, rfl, rfl⟩
        · exact genLeaf_pack _ _ _ (dateLoop_frame isHol dep _ _ _ _ _)
  · rename_i hex
    have hex0 : db.schedules.filter (fun r => decide (r.department_id = dep ∧
        s ≤ r.date ∧ r.date ≤ e)) = [] := by
      rcases not_and_or.mp hex with h | h
      · exact not_ne_iff.mp h
      · exact absurd trivial h
    refine ⟨db, Or.inr ⟨rfl, hex0⟩, ?_⟩
    split
    · exact ⟨⟨[], (List.append_nil _).symm, fun r hr => absurd hr (List.not_mem_nil r)⟩,
        rfl, rfl, rfl⟩
    · split
      · exact ⟨⟨[], (List.append_nil _).symm, fun r hr => absurd hr (List.not_mem_nil r)⟩,
          rfl, rfl, rfl⟩
      · split
        · exact ⟨⟨[], (List.append_nil _).symm, fun r hr => absurd hr (List.not_mem_nil r)⟩,
            rfl, rfl, rfl⟩
        · exact genLeaf_pack _ _ _ (dateLoop_frame isHol dep _ _ _ _ _)

/-- **C5.**  With `regenerate=true`, the department's schedule rows in
range with status `scheduled` or `comp_off_taken` are gone from the
resulting store; every other stored row — in particular `leave`,
`leave_half_*` and `comp_off_earned` rows in range — survives; dependent
Attendance rows are deleted and `CheckInOut`/`CompOffRequest` references
to deleted rows are nulled, exactly (main.py:5395-5445). -/
theorem generate_regenerate_frame (isHol : Day → Bool) (db : DB) (dep : Nat) (s e : Day)
    (hwf : ∀ r ∈ db.schedules, r.id < db.nextScheduleId) :
    (∀ r ∈ db.schedules, deleteCriteria dep s e r = true →
      r ∉ (generateSchedules isHol db dep s e true).2.schedules) ∧
    (∀ r ∈ db.schedules, deleteCriteria dep s e r = false →
      r ∈ (generateSchedules isHol db dep s e true).2.schedules) ∧
    (generateSchedules isHol db dep s e true).2.attendance = db.attendance.filter (fun a =>
      !(refersDeletedRow (regenDeleteIds db dep s e) a.schedule_id)) ∧
    (generateSchedules isHol db dep s e true).2.checkins = db.checkins.map (fun c =>
      if refersDeletedRow (regenDeleteIds db dep s e) c.schedule_id then
        { c with schedule_id := none } else c) ∧
    (generateSchedules isHol db dep s e true).2.compOffRequests = db.compOffRequests.map
      (fun c => if refersDeletedRow (regenDeleteIds db dep s e) c.schedule_id then
        { c with schedule_id := none } else c) := by
  obtain ⟨db1, hor, ⟨ext, hs, hid⟩, ha, hc, hcr⟩ := generateSchedules_regen_frame isHol db dep s e
  have hfacts : db1.schedules = db.schedules.filter (fun r => !(deleteCriteria dep s e r)) ∧
      db1.nextScheduleId = db.nextScheduleId ∧
      db1.attendance = db.attendance.filter (fun a =>
        !(refersDeletedRow (regenDeleteIds db dep s e) a.schedule_id)) ∧
      db1.checkins = db.checkins.map (fun c =>
        if refersDeletedRow (regenDeleteIds db dep s e) c.schedule_id then
          { c with schedule_id := none } else c) ∧
      db1.compOffRequests = db.compOffRequests.map (fun c =>
        if refersDeletedRow (regenDeleteIds db dep s e) c.schedule_id then
          { c with schedule_id := none } else c) := by
    rcases hor with rfl | ⟨heq, hex0⟩
    · exact regenerateDelete_facts db dep s e
    · rw [heq]
      have hnone : ∀ r ∈ db.schedules, deleteCriteria dep s e r = false := by
        intro r hr
        have h1 := List.filter_eq_nil_iff.mp hex0 r hr
        unfold deleteCriteria
        simp only [decide_eq_true_eq] at h1
        rw [decide_eq_false_iff_not]
        intro hcrit
        exact h1 ⟨hcrit.1, hcrit.2.1, hcrit.2.2.1⟩
      have hids : regenDeleteIds db dep s e = [] := by
        unfold regenDeleteIds
        rw [List.filter_eq_nil_iff.mpr (fun r hr => by rw [hnone r hr]; simp)]
        rfl
      refine ⟨?_, rfl, ?_, ?_, ?_⟩
      · exact (List.filter_eq_self.mpr (fun r hr => by rw [hnone r hr]; rfl)).symm
      · rw [hids]
        exact (List.filter_eq_self.mpr (fun a _ => by
          cases ha2 : a.schedule_id <;> simp [refersDeletedRow, ha2])).symm
      · rw [hids]
        exact (map_id_of _ _ (fun c _ => by
          cases hc2 : c.schedule_id <;> simp [refersDeletedRow, hc2])).symm
      · rw [hids]
        exact (map_id_of _ _ (fun c _ => by
          cases hc2 : c.schedule_id <;> simp [refersDeletedRow, hc2])).symm
  obtain ⟨hs1, hn1, ha1, hc1, hcr1⟩ := hfacts
  refine ⟨?_, ?_, ha.trans ha1, hc.trans hc1, hcr.trans hcr1⟩
  · intro r hr hcrit hmem
    rw [hs] at hmem
    rcases List.mem_append.mp hmem with h | h
    · rw [hs1, List.mem_filter] at h
      have h2 := h.2
      rw [hcrit] at h2
      exact Bool.noConfusion h2
    · have h2 := hid r h
      rw [hn1] at h2
      exact absurd (hwf r hr) (not_lt.mpr h2)
  · intro r hr hcrit
    rw [hs]
    apply List.mem_append_left
    rw [hs1, List.mem_filter]
    refine ⟨hr, ?_⟩
    rw [hcrit]
    rfl

theorem generate_regenerate_frame_witness :
    mkRow 1 1 20454 (some 540) (some 1080) "scheduled" ∉
      (generateSchedules (fun _ => false) c5db 1 20450 20460 true).2.schedules ∧
    mkRow 2 1 20455 none none "leave" ∈
      (generateSchedules (fun _ => false) c5db 1 20450 20460 true).2.schedules ∧
    (generateSchedules (fun _ => false) c5db 1 20450 20460 true).2.attendance = [] := by
  have h := generate_regenerate_frame (fun _ => false) c5db 1 20450 20460 (by decide)
  refine ⟨h.1 _ (by decide) (by decide), h.2.1 _ (by decide) (by decide), ?_⟩
  rw [h.2.2.1]
  decide

theorem schedule_invariant_preservation_witness :
    scheduleInvariant (generateSchedules (fun _ => false) emptyDB 1 0 0 false).2 ∧
    scheduleInvariant c2lpost ∧
    (createSchedule (fun _ => false) c2ldb
      { employee_id := 1, date := 20454, start_time := 540, end_time := 1080,
        role_id := some 1, shift_id := none }).2 = c2ldb := by
  refine ⟨schedule_invariant_preservation.1 (fun _ => false) emptyDB 1 0 0 false (by decide),
          schedule_invariant_preservation.2.1 c2ldb c2lpost 1 20454 c2lr (by decide) (by decide)
            (by decide) (by decide),
          schedule_invariant_preservation.2.2 (fun _ => false) c2ldb _⟩

end ShiftSched
